import Mathlib

/-!
# Verification of the vaccination-data pipeline core

Shallow embedding of the column-reconciliation / date-normalization /
record-classification engine:

* `src/utils/date_parser.py` (`DateParser.parse_date`, `DateParser.validate_date`)
* `src/utils/constants.py` (`ColumnMappings`)
* `src/validators/data_validator.py` (`DataValidator.validate_columns`,
  `validate_column_types`, `validate_data`, `get_valid_records`)

Python exceptions are modelled with `Except`; a raised `ValueError` carrying a
message is `.error (.valueError msg)`, and the one non-`ValueError` escape that
matters (the OverflowError that int raises on an infinite float) is `.error .overflowError`.

Cell values of a pandas DataFrame are modelled as `PyVal` (missing/`NaN` or a
string); frames are a column list plus rows of key/value pairs.  The model of
float/int conversion used by the numeric-normalization step of the parser uses
exact arithmetic over the decimal literal; it is faithful for tokens whose
value is exactly representable in a double (all date-like tokens), and it
handles the `inf`/`infinity`/`nan` literals explicitly.  Numeric-literal
underscores and values overflowing a double are outside the model and no claim
depends on them.
-/

/-- A parsed calendar date, the result of `DateParser.parse_date`
    (`datetime` restricted to year/month/day). -/
structure ParsedDate where
  year : Nat
  month : Nat
  day : Nat
  deriving DecidableEq, Repr

/-- The Python exceptions that can escape the modelled code:
    `ValueError msg`, or the `OverflowError` that int raises on an infinite float. -/
inductive PyExc where
  | valueError (msg : String)
  | overflowError
  deriving DecidableEq, Repr

/-! ## Character and digit helpers -/

/-- Numeric value of a decimal digit string, most significant digit first
    (the value `int(s)` computes on an all-digit string). -/
def natFromDigits (l : List Char) : Nat :=
  l.foldl (fun a c => a * 10 + (c.toNat - 48)) 0

/-- The first re.sub of line 41: keep only the decimal digits. -/
def digitsOnly (l : List Char) : List Char :=
  l.filter Char.isDigit

/-- Leading run of decimal digits and the remainder (used by the float model). -/
def spanDigits : List Char → List Char × List Char
  | [] => ([], [])
  | c :: r =>
    if c.isDigit then
      let p := spanDigits r
      (c :: p.1, p.2)
    else ([], c :: r)

/-- Python `str.strip()` (ASCII whitespace). -/
def pyStrip (l : List Char) : List Char :=
  ((l.dropWhile Char.isWhitespace).reverse.dropWhile Char.isWhitespace).reverse

/-! ## Model of Python `float(s)` / `int(float(s))`

`parse_date` first tries `float(date_str)` and, on success, replaces the
token by `str(int(float_val))`.  `int(nan)` raises `ValueError` (caught by
the surrounding `except (ValueError, TypeError)`), while `int(inf)` raises
`OverflowError`, which that `except` clause does *not* catch. -/

/-- Outcome of a successful `float(s)`: an exact finite decimal value
    (sign, all mantissa digits, number of fraction digits, decimal exponent),
    or one of the special values. -/
inductive PyFloatKind where
  | finite (neg : Bool) (mant : Nat) (fracLen : Nat) (ex : Int)
  | inf (neg : Bool)
  | nan
  deriving DecidableEq, Repr

/-- Optional leading sign of a float literal. -/
def splitSign : List Char → Bool × List Char
  | [] => (false, [])
  | c :: r =>
    if c = '-' then (true, r)
    else if c = '+' then (false, r)
    else (false, c :: r)

/-- Optional exponent part of a float literal: empty, or `eNNN` consuming the
    whole remainder. -/
def parseExpPart (neg : Bool) (mant : List Char) (fracLen : Nat) :
    List Char → Option PyFloatKind
  | [] => some (.finite neg (natFromDigits mant) fracLen 0)
  | c :: r =>
    if c = 'e' ∨ c = 'E' then
      if (spanDigits (splitSign r).2).1.isEmpty ∨
          ¬ (spanDigits (splitSign r).2).2.isEmpty then none
      else
        some (.finite neg (natFromDigits mant) fracLen
          (if (splitSign r).1 then
            -(natFromDigits (spanDigits (splitSign r).2).1 : Int)
           else (natFromDigits (spanDigits (splitSign r).2).1 : Int)))
    else none

/-- Python `float(s)` on an already-stripped token: `none` models the
    `ValueError` of an unparseable literal. -/
def pyParseFloat (l : List Char) : Option PyFloatKind :=
  if (splitSign l).2.map Char.toLower = ['i', 'n', 'f'] ∨
      (splitSign l).2.map Char.toLower = ['i', 'n', 'f', 'i', 'n', 'i', 't', 'y'] then
    some (.inf (splitSign l).1)
  else if (splitSign l).2.map Char.toLower = ['n', 'a', 'n'] then some .nan
  else
    match (spanDigits (splitSign l).2).2 with
    | '.' :: r2 =>
      if (spanDigits (splitSign l).2).1.isEmpty ∧ (spanDigits r2).1.isEmpty then
        none
      else
        parseExpPart (splitSign l).1
          ((spanDigits (splitSign l).2).1 ++ (spanDigits r2).1)
          (spanDigits r2).1.length (spanDigits r2).2
    | _ =>
      if (spanDigits (splitSign l).2).1.isEmpty then none
      else
        parseExpPart (splitSign l).1 (spanDigits (splitSign l).2).1 0
          (spanDigits (splitSign l).2).2

/-- Truncation toward zero of the exact value, as `int(float_val)` computes it
    for finite values. -/
def pyFloatTrunc (neg : Bool) (mant : Nat) (fracLen : Nat) (ex : Int) : Int :=
  let mag : Nat :=
    if 0 ≤ ex then mant * 10 ^ ex.toNat / 10 ^ fracLen
    else mant / 10 ^ (fracLen + (-ex).toNat)
  if neg then -(mag : Int) else (mag : Int)

/-- Lines 32–37 of `date_parser.py`: try `float(date_str)`; on success replace
    the token by `str(int(float_val))`.  `ValueError`/`TypeError` are caught
    (token left unchanged), but `int(±inf)` raises an uncaught
    `OverflowError`. -/
def numericNormalize (t : List Char) : Except PyExc (List Char) :=
  match pyParseFloat t with
  | none => .ok t
  | some .nan => .ok t
  | some (.inf _) => .error .overflowError
  | some (.finite neg mant fracLen ex) =>
    .ok (toString (pyFloatTrunc neg mant fracLen ex)).data

/-! ## Calendar helpers -/

/-- The simplified leap rule used by both validation stages of
    `parse_date`: `29 if year % 4 == 0 else 28` for February. -/
def simpDaysInMonth (year month : Nat) : Nat :=
  match month with
  | 1 => 31
  | 2 => if year % 4 = 0 then 29 else 28
  | 3 => 31
  | 4 => 30
  | 5 => 31
  | 6 => 30
  | 7 => 31
  | 8 => 31
  | 9 => 30
  | 10 => 31
  | 11 => 30
  | 12 => 31
  | _ => 0

/-- The exact Gregorian leap rule applied by the `datetime(...)` constructor. -/
def realLeap (year : Nat) : Prop :=
  year % 4 = 0 ∧ (year % 100 ≠ 0 ∨ year % 400 = 0)

instance : DecidablePred realLeap := fun _ => by
  unfold realLeap; infer_instance

/-- Month lengths enforced by the `datetime(...)` constructor. -/
def realDaysInMonth (year month : Nat) : Nat :=
  if month = 2 then (if realLeap year then 29 else 28)
  else simpDaysInMonth year month

/-! ## Stage 1: the digit-run heuristic (lines 41–78) -/

/-- Component extraction of the digit-run heuristic: with exactly 7 digits the
    first digit is the month (`digits[0]`, `digits[1:3]`, `digits[3:]`),
    otherwise the first two are (`digits[:2]`, `digits[2:4]`, `digits[4:]`).
    Returns `(month, day, rawYear)`. -/
def digitRunSplit (digits : List Char) : Nat × Nat × Nat :=
  if digits.length = 7 then
    (natFromDigits (digits.take 1),
     natFromDigits ((digits.drop 1).take 2),
     natFromDigits (digits.drop 3))
  else
    (natFromDigits (digits.take 2),
     natFromDigits ((digits.drop 2).take 2),
     natFromDigits (digits.drop 4))

/-- Model of `year += 2000 if year < 100`. -/
def promoteYear (y : Nat) : Nat :=
  if y < 100 then y + 2000 else y

/-- The digit-run heuristic body (lines 44–74): range validation with the
    simplified leap rule, then `datetime(year, month, day)`, whose own
    `ValueError` (message not starting with `Invalid`) is the structural
    failure that falls through to format-based parsing. -/
def digitRun (digits : List Char) : Except String ParsedDate :=
  let month := (digitRunSplit digits).1
  let day := (digitRunSplit digits).2.1
  let year := promoteYear (digitRunSplit digits).2.2
  if month < 1 ∨ month > 12 then
    .error ("Invalid month: " ++ toString month ++ " (must be between 1 and 12)")
  else if day < 1 then
    .error ("Invalid day: " ++ toString day ++ " (must be greater than 0)")
  else if year < 1900 ∨ year > 2100 then
    .error ("Invalid year: " ++ toString year ++ " (must be between 1900 and 2100)")
  else if day > simpDaysInMonth year month then
    .error ("Invalid day: " ++ toString day ++ " (maximum " ++
      toString (simpDaysInMonth year month) ++ " days in month " ++
      toString month ++ ")")
  else if day ≤ realDaysInMonth year month then
    .ok ⟨year, month, day⟩
  else
    .error "day is out of range for month"

/-! ## Stage 2: format-based fallback (lines 80–134)

`datetime.strptime` is modelled by the CPython `_strptime` regular
expressions: `%m` matches `1[0-2]|0[1-9]|[1-9]`, `%d` matches
`3[01]|[12]\d|0[1-9]|[1-9]`, `%Y` matches exactly four digits; the whole
string must be consumed, and the `datetime` constructor then enforces the
exact calendar.  Error messages of the internal failures are representative
(no behaviour of the code depends on their exact text, only on the text of
the `Invalid ...` validation messages above). -/

/-- One token of a `strptime` format string. -/
inductive FmtTok where
  | tm
  | td
  | tY
  | lit (c : Char)
  deriving DecidableEq, Repr

/-- Candidate matches of `%m` = `1[0-2]|0[1-9]|[1-9]`, in regex alternation
    order (value, remainder). -/
def mCands (cs : List Char) : List (Nat × List Char) :=
  (match cs with
   | a :: b :: r =>
     (if a = '1' ∧ (b = '0' ∨ b = '1' ∨ b = '2') then [(natFromDigits [a, b], r)] else []) ++
     (if a = '0' ∧ b.isDigit ∧ b ≠ '0' then [(natFromDigits [b], r)] else [])
   | _ => []) ++
  (match cs with
   | a :: r => if a.isDigit ∧ a ≠ '0' then [(natFromDigits [a], r)] else []
   | [] => [])

/-- Candidate matches of `%d` = `3[01]|[12]\d|0[1-9]|[1-9]`. -/
def dCands (cs : List Char) : List (Nat × List Char) :=
  (match cs with
   | a :: b :: r =>
     (if a = '3' ∧ (b = '0' ∨ b = '1') then [(natFromDigits [a, b], r)] else []) ++
     (if (a = '1' ∨ a = '2') ∧ b.isDigit then [(natFromDigits [a, b], r)] else []) ++
     (if a = '0' ∧ b.isDigit ∧ b ≠ '0' then [(natFromDigits [b], r)] else [])
   | _ => []) ++
  (match cs with
   | a :: r => if a.isDigit ∧ a ≠ '0' then [(natFromDigits [a], r)] else []
   | [] => [])

/-- Candidate match of `%Y` = `\d\d\d\d`. -/
def yCands (cs : List Char) : List (Nat × List Char) :=
  match cs with
  | a :: b :: c :: d :: r =>
    if a.isDigit ∧ b.isDigit ∧ c.isDigit ∧ d.isDigit then
      [(natFromDigits [a, b, c, d], r)]
    else []
  | _ => []

/-- Backtracking matcher for a format over the input, mirroring the regex
    engine: alternatives are tried in order, the whole input must be
    consumed.  Accumulates the `(month, day, year)` groups. -/
def matchToks (toks : List FmtTok) (acc : Option Nat × Option Nat × Option Nat)
    (cs : List Char) : Option (Nat × Nat × Nat) :=
  match toks with
  | [] =>
    match cs, acc with
    | [], (some m, some d, some y) => some (m, d, y)
    | _, _ => none
  | .tm :: rest =>
    (mCands cs).findSome? (fun p => matchToks rest (some p.1, acc.2.1, acc.2.2) p.2)
  | .td :: rest =>
    (dCands cs).findSome? (fun p => matchToks rest (acc.1, some p.1, acc.2.2) p.2)
  | .tY :: rest =>
    (yCands cs).findSome? (fun p => matchToks rest (acc.1, acc.2.1, some p.1) p.2)
  | .lit ch :: rest =>
    match cs with
    | c :: cr => if c = ch then matchToks rest acc cr else none
    | [] => none

/-- Model of `datetime.strptime(s, fmt)` restricted to the formats below: regex match,
    then the calendar check of the datetime constructor.  Returns
    `(year, month, day)`. -/
def strptime (toks : List FmtTok) (name : String) (cs : List Char) :
    Except String (Nat × Nat × Nat) :=
  match matchToks toks (none, none, none) cs with
  | none => .error ("time data does not match format " ++ name)
  | some (m, d, y) =>
    if y < 1 then .error ("year " ++ toString y ++ " is out of range")
    else if d ≤ realDaysInMonth y m then .ok (y, m, d)
    else .error "day is out of range for month"

/-- The nine formats of `date_formats` (lines 85–100), in order. -/
def dateFormats : List (List FmtTok × String) :=
  [([.tm, .lit '/', .td, .lit '/', .tY], "%m/%d/%Y"),
   ([.tY, .lit '/', .tm, .lit '/', .td], "%Y/%m/%d"),
   ([.td, .lit '/', .tm, .lit '/', .tY], "%d/%m/%Y"),
   ([.tY, .lit '-', .tm, .lit '-', .td], "%Y-%m-%d"),
   ([.tm, .lit '-', .td, .lit '-', .tY], "%m-%d-%Y"),
   ([.td, .lit '-', .tm, .lit '-', .tY], "%d-%m-%Y"),
   ([.tY, .tm, .td], "%Y%m%d"),
   ([.tm, .td, .tY], "%m%d%Y"),
   ([.td, .tm, .tY], "%d%m%Y")]

/-- The second re.sub (line 82): keep only digits, slash and hyphen. -/
def fmtFilter (l : List Char) : List Char :=
  l.filter (fun c => c.isDigit ∨ c = '/' ∨ c = '-')

/-- The loop over `date_formats` (lines 103–134): first format that parses
    and passes the year/month/day checks wins; otherwise the last error is
    wrapped into `Unable to parse date ...`. -/
def tryFormats (fmts : List (List FmtTok × String)) (lastError : Option String)
    (fs : List Char) : Except PyExc ParsedDate :=
  match fmts with
  | [] =>
    match lastError with
    | some le =>
      .error (.valueError ("Unable to parse date '" ++ String.mk fs ++ "': " ++ le))
    | none =>
      .error (.valueError ("Unable to parse date '" ++ String.mk fs ++
        "': format not recognized"))
  | (f, nm) :: rest =>
    match strptime f nm fs with
    | .error e => tryFormats rest (some e) fs
    | .ok (y, m, d) =>
      if y < 1900 ∨ y > 2100 then
        tryFormats rest
          (some ("Invalid year: " ++ toString y ++ " (must be between 1900 and 2100)")) fs
      else if m < 1 ∨ m > 12 then
        tryFormats rest
          (some ("Invalid month: " ++ toString m ++ " (must be between 1 and 12)")) fs
      else if d < 1 ∨ d > simpDaysInMonth y m then
        tryFormats rest
          (some ("Invalid day: " ++ toString d ++ " (maximum " ++
            toString (simpDaysInMonth y m) ++ " days in month " ++ toString m ++ ")")) fs
      else .ok ⟨y, m, d⟩

/-! ## `DateParser.parse_date` and `DateParser.validate_date` -/

/-- Python `str.startswith`. -/
def pyStartsWith (pre s : String) : Bool :=
  pre.data.isPrefixOf s.data

/-- Body of `parse_date` on a non-`None` string argument. -/
def parseDateCore (l : List Char) : Except PyExc ParsedDate :=
  if (pyStrip l).isEmpty then .error (.valueError "Empty date string")
  else
    match numericNormalize (pyStrip l) with
    | .error e => .error e
    | .ok ds =>
      if 6 ≤ (digitsOnly ds).length then
        match digitRun (digitsOnly ds) with
        | .ok pd => .ok pd
        | .error msg =>
          if pyStartsWith "Invalid" msg then .error (.valueError msg)
          else tryFormats dateFormats none (fmtFilter ds)
      else tryFormats dateFormats none (fmtFilter ds)

/-- Model of `DateParser.parse_date`: `None` and whitespace-only strings raise
    `Empty date string`. -/
def parse_date (x : Option String) : Except PyExc ParsedDate :=
  match x with
  | none => .error (.valueError "Empty date string")
  | some s => parseDateCore s.data

/-- Model of `DateParser.validate_date`: `True` on success, `False` on `ValueError`;
    any other exception propagates. -/
def validate_date (x : Option String) : Except PyExc Bool :=
  match parse_date x with
  | .ok _ => .ok true
  | .error (.valueError _) => .ok false
  | .error .overflowError => .error .overflowError

/-! ## Data model of the validator (`constants.py`, `data_validator.py`)

A pandas DataFrame is a column list plus rows of key/value pairs; cell values
are `NaN` or strings (the values produced by reading the CSV
inputs).  Python `str(x)` on a cell is `pyStrOf` (`str(nan) = "nan"`). -/

/-- A pandas cell: missing (`NaN`) or a string. -/
inductive PyVal where
  | nan
  | str (s : String)
  deriving DecidableEq, Repr

/-- A row: association list from column name to cell value. -/
abbrev Row := List (String × PyVal)

/-- A DataFrame: column names plus rows. -/
structure Frame where
  cols : List String
  rows : List Row
  deriving DecidableEq, Repr

/-- Cell access; a key that is absent reads as `NaN`. -/
def getVal (r : Row) (c : String) : PyVal :=
  match r.find? (fun p => p.1 = c) with
  | some p => p.2
  | none => .nan

/-- Replace the value at a key (no-op if the key is absent). -/
def setVal (r : Row) (c : String) (v : PyVal) : Row :=
  r.map (fun p => if p.1 = c then (c, v) else p)

/-- Model of `pd.notna`. -/
def pyNotNa : PyVal → Bool
  | .nan => false
  | .str _ => true

/-- Python `str(x)` / pandas `astype(str)` on a cell. -/
def pyStrOf : PyVal → String
  | .nan => "nan"
  | .str s => s

/-! ## `ColumnMappings` (constants.py) -/

/-- Model of `ColumnMappings.COLUMN_MAP`, in dict insertion order.  The source dict
    literal re-lists `VaccinationType` and `VaccinationDate` under the IND
    section with identical values; a Python dict keeps the first position, so
    the duplicates are dropped here. -/
def columnMap : List (String × String) :=
  [("ID", "Customer_Id"),
   ("Name", "Customer_Name"),
   ("VaccinationType", "Vaccination_Id"),
   ("VaccinationDate", "Open_Date"),
   ("Unique ID", "Customer_Id"),
   ("Patient Name", "Customer_Name"),
   ("Vaccine Type", "Vaccination_Id"),
   ("Date of Birth", "DOB"),
   ("Date of Vaccination", "Open_Date"),
   ("DOB", "DOB"),
   ("Doctor Name", "Dr_Name"),
   ("Doctor", "Dr_Name"),
   ("State/Province", "State"),
   ("State", "State"),
   ("Country Name", "Country"),
   ("Country", "Country"),
   ("Consultation Date", "Last_Consulted_Date"),
   ("Last Consulted Date", "Last_Consulted_Date"),
   ("Postal Code", "Post_Code"),
   ("Post Code", "Post_Code")]

/-- Model of `ColumnMappings.MANDATORY_COLUMNS`. -/
def mandatoryColumns : List String :=
  ["Customer_Name", "Customer_Id", "Open_Date"]

/-- Model of `ColumnMappings.OPTIONAL_COLUMNS`. -/
def optionalColumns : List String :=
  ["Last_Consulted_Date", "Vaccination_Id", "Dr_Name", "State", "Country",
   "Post_Code", "DOB"]

/-- Model of `ColumnMappings.SNOWFLAKE_COLUMN_MAP`. -/
def snowflakeColumnMap : List (String × String) :=
  [("Customer_Name", "Name"),
   ("Customer_Id", "Cust_I"),
   ("Open_Date", "Open_Dt"),
   ("Last_Consulted_Date", "Consul_Dt"),
   ("Vaccination_Id", "VAC_ID"),
   ("Dr_Name", "DR_Name"),
   ("State", "State"),
   ("Country", "Country"),
   ("DOB", "DOB"),
   ("Is_Active", "FLAG")]

/-- Model of `COLUMN_MAP.get(c)`: canonical target of a source column, if known. -/
def lookupTarget (c : String) : Option String :=
  match columnMap.find? (fun p => p.1 = c) with
  | some p => some p.2
  | none => none

/-- Model of `SNOWFLAKE_COLUMN_MAP.get(col, col)` used by
    `map_to_snowflake_columns`. -/
def snowName (c : String) : String :=
  match snowflakeColumnMap.find? (fun p => p.1 = c) with
  | some p => p.2
  | none => c

/-! ## `DataValidator.validate_columns` (lines 52–108) -/

/-- One step of the source-column loop of `validate_columns`: record the
    target of a known source column unless already processed. -/
def mtStep (acc : List String) (c : String) : List String :=
  match lookupTarget c with
  | some t => if acc.contains t then acc else acc ++ [t]
  | none => acc

/-- Canonical target columns of the mapped frame, in order of first
    appearance among the source columns (`processed_targets` dedups). -/
def mappedTargets (cols : List String) : List String :=
  cols.foldl mtStep []

/-- The source columns mapping to target `t` that are present, in the
    declared order of `COLUMN_MAP` (the list comprehension over the map
    items at lines 76–77). -/
def sourcesFor (t : String) (cols : List String) : List String :=
  columnMap.filterMap
    (fun p => if p.2 = t ∧ cols.contains p.1 then some p.1 else none)

/-- Model of `df[source_cols].bfill(axis=1).iloc[:, 0]`: the first non-`NaN` value
    among the given source columns (`NaN` if all are missing).  Note an empty
    string is not `NaN` and is taken. -/
def coalesceVal (r : Row) (srcs : List String) : PyVal :=
  match srcs.findSome?
      (fun c => match getVal r c with | .nan => none | v => some v) with
  | some v => v
  | none => .nan

/-- One reconciled row: every canonical target coalesced from its present
    source columns. -/
def reconcileRow (cols : List String) (r : Row) : Row :=
  (mappedTargets cols).map (fun t => (t, coalesceVal r (sourcesFor t cols)))

/-- The country-code fallback applies when no present source column maps to
    `Country` and a truthy filename is supplied (lines 89–92). -/
def countryFallback (cols : List String) (filename : Option String) : Prop :=
  match filename with
  | some fn => ¬ (mappedTargets cols).contains "Country" = true ∧ fn ≠ ""
  | none => False

instance (cols : List String) :
    (filename : Option String) → Decidable (countryFallback cols filename)
  | some fn =>
    inferInstanceAs
      (Decidable (¬ (mappedTargets cols).contains "Country" = true ∧ fn ≠ ""))
  | none => inferInstanceAs (Decidable False)

/-- The columns of the mapped frame: the canonical targets, plus the
    filename-derived `Country` when the fallback applies. -/
def vcCols (cols : List String) (filename : Option String) : List String :=
  if countryFallback cols filename then mappedTargets cols ++ ["Country"]
  else mappedTargets cols

/-- One fully reconciled row, including the filename-derived `Country` cell
    when the fallback applies. -/
def vcRow (cols : List String) (filename : Option String) (r : Row) : Row :=
  if countryFallback cols filename then
    reconcileRow cols r ++
      [("Country", .str (String.toUpper ((filename.getD "").take 3)))]
  else reconcileRow cols r

/-- The `missing_mandatory` list (line 96). -/
def vcMissing (cols : List String) (filename : Option String) : List String :=
  mandatoryColumns.filter (fun c => ¬ (vcCols cols filename).contains c)

/-- Model of `DataValidator.validate_columns(df, filename, strict)`: map columns to
    canonical names, coalesce duplicate targets, derive `Country` from the
    filename when absent, and under `strict` raise on missing mandatory
    columns (the missing-column log messages are not modelled). -/
def validateColumns (f : Frame) (filename : Option String) (strict : Bool) :
    Except PyExc Frame :=
  if strict ∧ ¬ (vcMissing f.cols filename).isEmpty then
    .error (.valueError
      ("Missing mandatory columns: " ++
        String.intercalate ", " (vcMissing f.cols filename)))
  else .ok ⟨vcCols f.cols filename, f.rows.map (vcRow f.cols filename)⟩

/-! ## `DataValidator.validate_column_types` (lines 110–192) -/

/-- The columns coerced with `astype(str)` (line 129).  The loop guards each
    with `col in cleaned_df.columns`, which on rectangular frames is
    equivalent to coercing exactly the row cells bearing these keys. -/
def stringColumns : List String :=
  ["Customer_Name", "Customer_Id", "Vaccination_Id", "Dr_Name", "State",
   "Country", "Post_Code", "Is_Active"]

/-- Model of `astype(str)` on the string columns of one row. -/
def coerceRow (r : Row) : Row :=
  r.map (fun p =>
    if stringColumns.contains p.1 then (p.1, .str (pyStrOf p.2)) else p)

/-- Model of `validate_date_with_reason` (lines 146–151): `DateParser.parse_date(str(x))`,
    `none` on success, the `ValueError` message on failure; any other
    exception propagates out of the `apply`. -/
def dateCheckCell (v : PyVal) : Except PyExc (Option String) :=
  match parse_date (some (pyStrOf v)) with
  | .ok _ => .ok none
  | .error (.valueError m) => .ok (some m)
  | .error .overflowError => .error .overflowError

/-- Effectful map over a list in `Except`, stopping at the first raised
    exception (the order in which a column-wise `apply` raises). -/
def exMap (g : α → Except PyExc β) : List α → Except PyExc (List β)
  | [] => .ok []
  | a :: l =>
    match g a with
    | .error e => .error e
    | .ok b =>
      match exMap g l with
      | .error e => .error e
      | .ok bs => .ok (b :: bs)

/-- Model of `cleaned_df.loc[invalid_mask, col] = np.nan`: null the column in the rows
    whose check produced an error message (rows paired with their check
    results positionally). -/
def nullInvalid (c : String) : List Row → List (Option String) → List Row
  | r :: rs, e :: es =>
    (match e with | some _ => setVal r c .nan | none => r) :: nullInvalid c rs es
  | _, _ => []

/-- An entry of the invalid-records table: the (string-coerced, pre-nulling)
    record plus `Invalid_Field` and `Validation_Error`. -/
structure InvalidRec where
  row : Row
  field : String
  reason : String
  deriving DecidableEq, Repr

/-- The invalid records collected for a mandatory date column: the rows whose
    check failed, in row order, each carrying `Invalid_Field` and
    `Validation_Error`. -/
def invalidOf (c : String) : List Row → List (Option String) → List InvalidRec
  | r :: rs, e :: es =>
    match e with
    | some m => ⟨r, c, m⟩ :: invalidOf c rs es
    | none => invalidOf c rs es
  | _, _ => []

/-- Validation pass over an optional date column (lines 177–190): failures
    are only logged, the cell is nulled. -/
def nullCol (c : String) (rows : List Row) : Except PyExc (List Row) :=
  match exMap (fun r => dateCheckCell (getVal r c)) rows with
  | .error e => .error e
  | .ok errs => .ok (nullInvalid c rows errs)

/-- Model of `DataValidator.validate_column_types(df)`: string coercion, then the
    mandatory date column `Open_Date` (failures collected as invalid records
    and nulled), then the optional date columns `Last_Consulted_Date` and
    `DOB` (failures only nulled). -/
def validateColumnTypes (f : Frame) :
    Except PyExc (Frame × List InvalidRec) :=
  match (if f.cols.contains "Open_Date" then
           match exMap (fun r => dateCheckCell (getVal r "Open_Date"))
               (f.rows.map coerceRow) with
           | .error e => .error e
           | .ok errs =>
             .ok (nullInvalid "Open_Date" (f.rows.map coerceRow) errs,
                  invalidOf "Open_Date" (f.rows.map coerceRow) errs)
         else .ok (f.rows.map coerceRow, []) :
         Except PyExc (List Row × List InvalidRec)) with
  | .error e => .error e
  | .ok (r2, inv) =>
    match (if f.cols.contains "Last_Consulted_Date" then
             nullCol "Last_Consulted_Date" r2 else .ok r2) with
    | .error e => .error e
    | .ok r3 =>
      match (if f.cols.contains "DOB" then nullCol "DOB" r3 else .ok r3) with
      | .error e => .error e
      | .ok r4 => .ok (⟨f.cols, r4⟩, inv)

/-- Model of `DataValidator.validate_data` restricted to the reconciliation and
    classification stages (the optional `|H|` header-sentinel stripping and
    the invalid-records CSV dump concern no claim and are omitted): a
    `validate_columns` failure propagates before any row is classified. -/
def validateData (f : Frame) (filename : Option String) (strict : Bool) :
    Except PyExc (Frame × List InvalidRec) :=
  match validateColumns f filename strict with
  | .error e => .error e
  | .ok g => validateColumnTypes g

/-! ## `DataValidator.get_valid_records` (lines 251–290) -/

/-- The admission mask (lines 266–278): `Open_Date` non-null, and each of the
    other mandatory columns non-null and non-empty after `astype(str)` —
    each condition imposed only when the column is present in the frame. -/
def admitRow (cols : List String) (r : Row) : Bool :=
  (if cols.contains "Open_Date" then pyNotNa (getVal r "Open_Date") else true) &&
  (if cols.contains "Customer_Name" then
     pyNotNa (getVal r "Customer_Name") && (pyStrOf (getVal r "Customer_Name") != "")
   else true) &&
  (if cols.contains "Customer_Id" then
     pyNotNa (getVal r "Customer_Id") && (pyStrOf (getVal r "Customer_Id") != "")
   else true)

/-- Model of `map_to_snowflake_columns` on one row. -/
def renameRow (r : Row) : Row :=
  r.map (fun p => (snowName p.1, p.2))

/-- Model of `DataValidator.get_valid_records(df)`: filter by the admission mask, then
    rename to the external (Snowflake) column names. -/
def getValidRecords (f : Frame) : Frame :=
  ⟨f.cols.map snowName, (f.rows.filter (admitRow f.cols)).map renameRow⟩

deriving instance DecidableEq for Except

/-! ## Auxiliary definitions for the theorems -/

/-- The component split exactly as the claim words it: with exactly 7 digits
    the first digit is the month, the next 2 the day, the rest the year;
    otherwise the first 2 digits are the month, the next 2 the day, the rest
    the year.  Stated from the spec, for comparison with the implemented
    `digitRunSplit`. -/
def specDigitSplit (digits : List Char) : Nat × Nat × Nat :=
  let k := if digits.length = 7 then 1 else 2
  (natFromDigits (digits.take k),
   natFromDigits ((digits.drop k).take 2),
   natFromDigits (digits.drop (k + 2)))

/-- Two-digit zero-padded decimal rendering (for `n < 100`). -/
def pad2 (n : Nat) : List Char :=
  [Nat.digitChar (n / 10), Nat.digitChar (n % 10)]

/-- Four-digit zero-padded decimal rendering (for `n < 10000`). -/
def pad4 (n : Nat) : List Char :=
  [Nat.digitChar (n / 1000), Nat.digitChar (n / 100 % 10),
   Nat.digitChar (n / 10 % 10), Nat.digitChar (n % 10)]

/-- The characters of the `MM/DD/YYYY` rendering of a date. -/
def renderChars (m d y : Nat) : List Char :=
  pad2 m ++ ('/' :: (pad2 d ++ ('/' :: pad4 y)))

/-- The `MM/DD/YYYY` rendering of a date, the layout whose round-trip through
    `parse_date` is proved. -/
def renderMDY (m d y : Nat) : String :=
  String.mk (renderChars m d y)

/-! ## Frames used as concrete test batches -/

/-- A batch carrying both `DOB` and `Date of Birth`, with the
    declared-precedence column holding an empty string. -/
def dobFrame : Frame :=
  ⟨["Date of Birth", "DOB"],
   [[("Date of Birth", .str ""), ("DOB", .str "2000-01-01")]]⟩

/-- A batch with no column mapping to `Customer_Id` (its columns map to
    `Customer_Name` and `Open_Date`). -/
def noCustIdFrame : Frame :=
  ⟨["Name", "VaccinationDate"],
   [[("Name", .str "Alice"), ("VaccinationDate", .str "01/02/2023")]]⟩

/-- The reconciled form of `noCustIdFrame` under `strict = false`. -/
def noCustIdMapped : Frame :=
  ⟨["Customer_Name", "Open_Date"],
   [[("Customer_Name", .str "Alice"), ("Open_Date", .str "01/02/2023")]]⟩

/-- A classified batch exercising the mandatory/optional asymmetry: row 0
    has an invalid `Open_Date` and a valid `DOB`, row 1 the reverse. -/
def c3Frame : Frame :=
  ⟨["Customer_Name", "Customer_Id", "Open_Date", "DOB"],
   [[("Customer_Name", .str "A"), ("Customer_Id", .str "1"),
     ("Open_Date", .str "13/45/2024"), ("DOB", .str "01/01/2000")],
    [("Customer_Name", .str "B"), ("Customer_Id", .str "2"),
     ("Open_Date", .str "01/02/2023"), ("DOB", .str "junk")]]⟩

/-- The clean stream `validate_column_types` produces for `c3Frame`. -/
def c3Clean : Frame :=
  ⟨["Customer_Name", "Customer_Id", "Open_Date", "DOB"],
   [[("Customer_Name", .str "A"), ("Customer_Id", .str "1"),
     ("Open_Date", .nan), ("DOB", .str "01/01/2000")],
    [("Customer_Name", .str "B"), ("Customer_Id", .str "2"),
     ("Open_Date", .str "01/02/2023"), ("DOB", .nan)]]⟩

/-- The invalid-outcome list `validate_column_types` produces for
    `c3Frame`: only the `Open_Date` failure of row 0. -/
def c3Invalid : List InvalidRec :=
  [⟨[("Customer_Name", .str "A"), ("Customer_Id", .str "1"),
     ("Open_Date", .str "13/45/2024"), ("DOB", .str "01/01/2000")],
    "Open_Date", "Invalid month: 13 (must be between 1 and 12)"⟩]

/-- A batch whose row has a missing (`NaN`) mandatory `Customer_Name`. -/
def c10Frame : Frame :=
  ⟨["Customer_Name", "Customer_Id", "Open_Date"],
   [[("Customer_Name", .nan), ("Customer_Id", .str "C1"),
     ("Open_Date", .str "01/02/2023")]]⟩

/-- The clean stream for `c10Frame`: the missing name became the literal
    string `"nan"`. -/
def c10Clean : Frame :=
  ⟨["Customer_Name", "Customer_Id", "Open_Date"],
   [[("Customer_Name", .str "nan"), ("Customer_Id", .str "C1"),
     ("Open_Date", .str "01/02/2023")]]⟩

/-- The coalescing described by the wording of the spec: the first value
    neither `NaN` nor the empty string (compared against the implemented
    `coalesceVal`, which is `bfill`: first non-`NaN` only). -/
def specFirstNonEmpty (r : Row) (srcs : List String) : PyVal :=
  match srcs.findSome?
      (fun c => match getVal r c with
        | .nan => none
        | .str "" => none
        | v => some v) with
  | some v => v
  | none => .nan

/-! ## Helper lemmas -/

theorem contains_iff_mem (l : List String) (a : String) :
    l.contains a = true ↔ a ∈ l := by
  simp [List.contains]

theorem mem_mtStep (acc : List String) (c t : String) :
    t ∈ mtStep acc c ↔ t ∈ acc ∨ lookupTarget c = some t := by
  unfold mtStep
  cases h : lookupTarget c with
  | none => simp [h]
  | some t' =>
    simp only [h, Option.some.injEq]
    by_cases hc : acc.contains t' = true
    · rw [if_pos hc]
      have ht' := (contains_iff_mem acc t').mp hc
      constructor
      · exact fun ha => Or.inl ha
      · rintro (ha | hb)
        · exact ha
        · exact hb ▸ ht'
    · rw [if_neg hc, List.mem_append, List.mem_singleton]
      constructor
      · rintro (ha | hb)
        · exact Or.inl ha
        · exact Or.inr hb.symm
      · rintro (ha | hb)
        · exact Or.inl ha
        · exact Or.inr hb.symm

theorem mem_foldl_mtStep (cols : List String) (acc : List String) (t : String) :
    t ∈ cols.foldl mtStep acc ↔
      t ∈ acc ∨ ∃ c ∈ cols, lookupTarget c = some t := by
  induction cols generalizing acc with
  | nil => simp
  | cons c cols ih =>
    rw [List.foldl_cons, ih, mem_mtStep]
    constructor
    · rintro ((h | h) | ⟨c', hc', h⟩)
      · exact Or.inl h
      · exact Or.inr ⟨c, List.mem_cons_self c cols, h⟩
      · exact Or.inr ⟨c', List.mem_cons_of_mem c hc', h⟩
    · rintro (h | ⟨c', hc', h⟩)
      · exact Or.inl (Or.inl h)
      · rcases List.mem_cons.mp hc' with rfl | hc'
        · exact Or.inl (Or.inr h)
        · exact Or.inr ⟨c', hc', h⟩

/-- A target is in the mapped frame iff some present source column maps
    to it. -/
theorem mem_mappedTargets (cols : List String) (t : String) :
    t ∈ mappedTargets cols ↔ ∃ c ∈ cols, lookupTarget c = some t := by
  rw [mappedTargets, mem_foldl_mtStep]; simp

theorem getVal_cons (p : String × PyVal) (r : Row) (c : String) :
    getVal (p :: r) c = if p.1 = c then p.2 else getVal r c := by
  unfold getVal
  by_cases h : p.1 = c <;> simp [List.find?, h]

/-- Reading a key out of a keyed `map` over a target list. -/
theorem getVal_map_keys (ts : List String) (v : String → PyVal) (t : String)
    (h : t ∈ ts) : getVal (ts.map (fun t => (t, v t))) t = v t := by
  induction ts with
  | nil => cases h
  | cons a ts ih =>
    rw [List.map_cons, getVal_cons]
    by_cases ha : a = t
    · simp [ha]
    · rcases List.mem_cons.mp h with rfl | h'
      · exact absurd rfl ha
      · simp [ha, ih h']

/-- Keys absent from a prefix are read from the suffix. -/
theorem getVal_append_of_absent (r0 r1 : Row) (c : String)
    (h : ∀ p ∈ r0, p.1 ≠ c) : getVal (r0 ++ r1) c = getVal r1 c := by
  induction r0 with
  | nil => rfl
  | cons p r0 ih =>
    rw [List.cons_append, getVal_cons, if_neg (h p (List.mem_cons_self p r0))]
    exact ih (fun q hq => h q (List.mem_cons_of_mem p hq))

/-- Model of `setVal` at another key does not change a read. -/
theorem getVal_setVal_ne (r : Row) (c c' : String) (v : PyVal) (h : c' ≠ c) :
    getVal (setVal r c' v) c = getVal r c := by
  induction r with
  | nil => rfl
  | cons p r ih =>
    unfold setVal
    rw [List.map_cons]
    by_cases hp : p.1 = c'
    · rw [if_pos hp, getVal_cons, getVal_cons, if_neg h, if_neg (hp ▸ h ∘ Eq.symm ∘ Eq.symm)]
      exact ih
    · rw [if_neg hp, getVal_cons, getVal_cons]
      by_cases hc : p.1 = c
      · simp [hc]
      · simp only [hc, if_false]
        exact ih

/-- Model of `setVal` to `NaN` reads back `NaN` (also when the key is absent). -/
theorem getVal_setVal_nan (r : Row) (c : String) :
    getVal (setVal r c .nan) c = .nan := by
  induction r with
  | nil => rfl
  | cons p r ih =>
    unfold setVal
    rw [List.map_cons]
    by_cases hp : p.1 = c
    · rw [if_pos hp, getVal_cons, if_pos rfl]
    · rw [if_neg hp, getVal_cons, if_neg hp]
      exact ih

/-! ## Claim theorems -/

/-- Claim **C7** (code bug): for the token `"inf"`, `float("inf")` succeeds and
    the int conversion raises `OverflowError`, which the
    except clause for ValueError and TypeError does not catch: `parse_date`
    escapes with a raw non-`ValueError` exception, and `validate_date`
    (which catches only `ValueError`) propagates it instead of returning a
    boolean — contrary to the claim and to the docstrings of both functions.
    For ordinary unparseable or out-of-range tokens the failure is the
    structured `ValueError` the claim describes. -/
theorem C7_inf_overflow_escape :
    parse_date (some "inf") = .error .overflowError ∧
    validate_date (some "inf") = .error .overflowError ∧
    validate_date (some "Infinity") = .error .overflowError ∧
    validate_date (some "13/45/2024") = .ok false ∧
    validate_date (some "01/02/2023") = .ok true ∧
    validate_date none = .ok false ∧
    validate_date (some "  ") = .ok false := by
  decide

/-- Claim **C8**: the day-in-month validation applied by `parse_date` uses the
    simplified leap rule `29 if year % 4 == 0 else 28` (the single
    `simpDaysInMonth` both the digit-run stage and the format-based stage
    evaluate): `parse("02292024")` is Feb 29 2024 and `parse("02292023")`
    fails with the invalid-day reason. -/
theorem C8_simplified_leap_rule :
    parse_date (some "02292024") = .ok ⟨2024, 2, 29⟩ ∧
    parse_date (some "02292023") =
      .error (.valueError "Invalid day: 29 (maximum 28 days in month 2)") ∧
    (∀ y : Nat, simpDaysInMonth y 2 = if y % 4 = 0 then 29 else 28) := by
  refine ⟨by decide, by decide, fun y => rfl⟩

/-- Claim **C6** (counterexample): `"2023-01-02"` is a valid `YYYY-MM-DD` calendar
    date, yet `parse_date` fails on it: its eight digits `20230102` are
    intercepted by the digit-run heuristic, which reads month `20` and
    reports the terminal range failure, never reaching the `%Y-%m-%d`
    fallback.  Likewise every `DD-MM-YYYY` date with day `> 12` fails, so
    the claimed idempotence over those layouts does not hold. -/
theorem C6_iso_reparse_cex :
    parse_date (some "2023-01-02") =
      .error (.valueError "Invalid month: 20 (must be between 1 and 12)") ∧
    parse_date (some "31-12-2023") =
      .error (.valueError "Invalid month: 31 (must be between 1 and 12)") := by
  decide

/-- Claim **C2** (counterexample): with both `Date of Birth` (declared first in
    `COLUMN_MAP`) and `DOB` present, and the `Date of Birth` cell holding the
    empty string `""`, reconciliation keeps `""` — `bfill` skips only `NaN` —
    while the first non-empty value named by the claim is the populated date. -/
theorem C2_coalesce_empty_string_cex :
    validateColumns dobFrame none false =
      .ok ⟨["DOB"], [[("DOB", .str "")]]⟩ ∧
    sourcesFor "DOB" dobFrame.cols = ["Date of Birth", "DOB"] ∧
    specFirstNonEmpty [("Date of Birth", .str ""), ("DOB", .str "2000-01-01")]
      ["Date of Birth", "DOB"] = .str "2000-01-01" ∧
    PyVal.str "" ≠ .str "2000-01-01" := by
  decide

/-- Claim **C5** (counterexample): a batch with no alias of `Customer_Id` does
    fail fast under `strict = true`, but under `strict = false` its rows do
    **not** all fail row-level mandatory validation: `get_valid_records`
    checks only the mandatory columns present in the frame, so the
    row is admitted to the valid set. -/
theorem C5_missing_mandatory_cex :
    validateData noCustIdFrame none true =
      .error (.valueError "Missing mandatory columns: Customer_Id") ∧
    validateData noCustIdFrame none false = .ok (noCustIdMapped, []) ∧
    getValidRecords noCustIdMapped =
      ⟨["Name", "Open_Dt"],
       [[("Name", .str "Alice"), ("Open_Dt", .str "01/02/2023")]]⟩ := by
  decide

/-- Claim **C1** (counterexample): the token `"02291900"` normalizes (via the float
    round-trip) to seven digits `2291900`; the digit-run split reads month 2,
    day 29, year 1900, and every range check of the claim passes (the
    simplified leap rule allows Feb 29 in 1900), yet `parse_date` does not
    interpret the token by the heuristic: the `datetime` constructor rejects
    the non-existent Gregorian date, the parser falls through to the
    format-based stage, and `%d%m%Y` reinterprets the digits as
    Sep 22 1900. -/
theorem C1_heuristic_fallthrough_cex :
    numericNormalize (pyStrip "02291900".data) = .ok "2291900".data ∧
    6 ≤ (digitsOnly "2291900".data).length ∧
    digitRunSplit (digitsOnly "2291900".data) = (2, 29, 1900) ∧
    promoteYear 1900 = 1900 ∧
    (1 ≤ 2 ∧ 2 ≤ 12) ∧ (1 : Nat) ≤ 29 ∧ (1900 ≤ 1900 ∧ 1900 ≤ 2100) ∧
    29 ≤ simpDaysInMonth 1900 2 ∧
    parse_date (some "02291900") = .ok ⟨1900, 9, 22⟩ ∧
    (⟨1900, 9, 22⟩ : ParsedDate) ≠ ⟨1900, 2, 29⟩ := by
  decide

/-- Claim **C1** (amended): for every token whose normalized form has at least six
    digits, `parse_date` extracts month/day/year exactly as the claimed
    digit-run split describes (first 1–2 digits month, next 2 day, rest
    year, 2-digit years promoted by 2000); a range-validation failure (its
    message starts with `Invalid`) is terminal with that specific reason,
    and when all range checks pass the heuristic date is returned —
    except when that date fails the exact Gregorian calendar (Feb 29 of
    1900/2100), in which case the parser falls through to the format-based
    stage.  `parse("1023099")` splits as month 1, day 2, year 3099 and fails
    the year range check. -/
theorem C1_digit_run_amended (s : String) (ds : List Char)
    (h0 : (pyStrip s.data).isEmpty = false)
    (h1 : numericNormalize (pyStrip s.data) = .ok ds)
    (h2 : 6 ≤ (digitsOnly ds).length) :
    parse_date (some s) =
      (match digitRun (digitsOnly ds) with
       | .ok pd => .ok pd
       | .error msg =>
         if pyStartsWith "Invalid" msg then .error (.valueError msg)
         else tryFormats dateFormats none (fmtFilter ds)) ∧
    digitRunSplit (digitsOnly ds) = specDigitSplit (digitsOnly ds) ∧
    parse_date (some "1023099") =
      .error (.valueError "Invalid year: 3099 (must be between 1900 and 2100)") := by
  refine ⟨?_, ?_, by decide⟩
  · have h2' : 6 ≤ (List.filter Char.isDigit ds).length := h2
    unfold parse_date parseDateCore
    simp only [h0, Bool.false_eq_true, if_false, h1, digitsOnly, if_pos h2']
  · by_cases h7 : (digitsOnly ds).length = 7 <;>
      simp [digitRunSplit, specDigitSplit, h7]

/-- Witness for `C1_digit_run_amended` at the example token of the claim. -/
theorem C1_digit_run_amended_witness :
    parse_date (some "1023099") =
      (match digitRun (digitsOnly "1023099".data) with
       | .ok pd => .ok pd
       | .error msg =>
         if pyStartsWith "Invalid" msg then .error (.valueError msg)
         else tryFormats dateFormats none (fmtFilter "1023099".data)) ∧
    digitRunSplit (digitsOnly "1023099".data) =
      specDigitSplit (digitsOnly "1023099".data) ∧
    parse_date (some "1023099") =
      .error (.valueError "Invalid year: 3099 (must be between 1900 and 2100)") :=
  C1_digit_run_amended "1023099" "1023099".data (by decide) (by decide) (by decide)

theorem reconcileRow_keys (cols : List String) (r : Row) :
    ∀ p ∈ reconcileRow cols r, p.1 ∈ mappedTargets cols := by
  intro p hp
  rcases List.mem_map.mp hp with ⟨t, ht, rfl⟩
  exact ht

/-- Claim **C9**: when no present source column maps to `Country` and a non-empty
    source identifier is supplied, reconciliation succeeds (non-strict) and
    gives every record a `Country` equal to the uppercased first three
    characters of the identifier. -/
theorem C9_country_from_filename (f : Frame) (fn : String)
    (hc : ∀ c ∈ f.cols, lookupTarget c ≠ some "Country")
    (hfn : fn ≠ "") :
    ∃ g, validateColumns f (some fn) false = .ok g ∧
      g.cols.contains "Country" = true ∧
      ∀ r ∈ g.rows, getVal r "Country" = .str (String.toUpper (fn.take 3)) := by
  have hnc : ¬ (mappedTargets f.cols).contains "Country" = true := by
    rw [contains_iff_mem, mem_mappedTargets]
    rintro ⟨c, hcc, hl⟩
    exact hc c hcc hl
  have hg : validateColumns f (some fn) false =
      .ok ⟨mappedTargets f.cols ++ ["Country"],
           (f.rows.map (reconcileRow f.cols)).map
             (fun r => r ++ [("Country", .str (String.toUpper (fn.take 3)))])⟩ := by
    have hnm : "Country" ∉ mappedTargets f.cols :=
      fun hm => hnc ((contains_iff_mem _ _).mpr hm)
    unfold validateColumns
    simp [vcCols, vcRow, countryFallback, hnm, hfn]
  refine ⟨_, hg, ?_, ?_⟩
  · rw [contains_iff_mem]
    exact List.mem_append_right _ (List.mem_singleton_self _)
  · intro r hr
    rcases List.mem_map.mp hr with ⟨r0, hr0, rfl⟩
    rcases List.mem_map.mp hr0 with ⟨rr, _, rfl⟩
    rw [getVal_append_of_absent]
    · rw [getVal_cons, if_pos rfl]
    · intro p hp hpc
      exact hnc ((contains_iff_mem _ _).mpr (hpc ▸ reconcileRow_keys f.cols rr p hp))

/-- Witness for `C9_country_from_filename` at the example identifier of the spec. -/
theorem C9_country_from_filename_witness :
    ∃ g, validateColumns
        ⟨["ID", "Name", "VaccinationDate"],
         [[("ID", .str "1"), ("Name", .str "A"),
           ("VaccinationDate", .str "01/02/2023")]]⟩
        (some "USA_2024.csv") false = .ok g ∧
      g.cols.contains "Country" = true ∧
      ∀ r ∈ g.rows, getVal r "Country" =
        .str (String.toUpper ("USA_2024.csv".take 3)) :=
  C9_country_from_filename _ "USA_2024.csv" (by decide) (by decide)

/-- Claim **C2** (amended): when several source columns map to one canonical
    field, the value per record is the first **non-null** (non-`NaN`) value
    among those columns in the declared order of `COLUMN_MAP` — an empty
    string counts as present and is taken.  In particular, with both
    `Date of Birth` (declared first) and `DOB` present, the coalesced `DOB`
    is the `Date of Birth` cell unless that cell is `NaN`. -/
theorem C2_coalesce_first_non_null (cols : List String) (r : Row)
    (h1 : cols.contains "Date of Birth" = true)
    (h2 : cols.contains "DOB" = true) :
    (∀ t ∈ mappedTargets cols,
        getVal (reconcileRow cols r) t = coalesceVal r (sourcesFor t cols)) ∧
    sourcesFor "DOB" cols = ["Date of Birth", "DOB"] ∧
    getVal (reconcileRow cols r) "DOB" =
      (if getVal r "Date of Birth" = .nan then getVal r "DOB"
       else getVal r "Date of Birth") := by
  have hm1 : "Date of Birth" ∈ cols := (contains_iff_mem _ _).mp h1
  have hm2 : "DOB" ∈ cols := (contains_iff_mem _ _).mp h2
  have hsrc : sourcesFor "DOB" cols = ["Date of Birth", "DOB"] := by
    simp [sourcesFor, columnMap, hm1, hm2]
  have hall : ∀ t ∈ mappedTargets cols,
      getVal (reconcileRow cols r) t = coalesceVal r (sourcesFor t cols) := by
    intro t ht
    exact getVal_map_keys _ _ _ ht
  refine ⟨hall, hsrc, ?_⟩
  have hDOB : "DOB" ∈ mappedTargets cols :=
    (mem_mappedTargets cols "DOB").mpr
      ⟨"DOB", (contains_iff_mem cols "DOB").mp h2, by decide⟩
  rw [hall "DOB" hDOB, hsrc]
  unfold coalesceVal
  cases hv : getVal r "Date of Birth" with
  | nan =>
    simp only [List.findSome?_cons, hv, if_pos]
    cases hv2 : getVal r "DOB" <;> simp [hv2]
  | str s => simp [List.findSome?_cons, hv]

/-- Witness for `C2_coalesce_first_non_null` on a concrete two-column
    batch row. -/
theorem C2_coalesce_first_non_null_witness :
    (∀ t ∈ mappedTargets ["DOB", "Date of Birth"],
        getVal (reconcileRow ["DOB", "Date of Birth"]
            [("DOB", .str "2000-01-01"), ("Date of Birth", .nan)]) t =
          coalesceVal [("DOB", .str "2000-01-01"), ("Date of Birth", .nan)]
            (sourcesFor t ["DOB", "Date of Birth"])) ∧
    sourcesFor "DOB" ["DOB", "Date of Birth"] = ["Date of Birth", "DOB"] ∧
    getVal (reconcileRow ["DOB", "Date of Birth"]
        [("DOB", .str "2000-01-01"), ("Date of Birth", .nan)]) "DOB" =
      (if getVal [("DOB", .str "2000-01-01"), ("Date of Birth", .nan)]
            "Date of Birth" = .nan
       then getVal [("DOB", .str "2000-01-01"), ("Date of Birth", .nan)] "DOB"
       else getVal [("DOB", .str "2000-01-01"), ("Date of Birth", .nan)]
            "Date of Birth") :=
  C2_coalesce_first_non_null ["DOB", "Date of Birth"] _ (by decide) (by decide)

theorem pyNotNa_iff (v : PyVal) : pyNotNa v = true ↔ v ≠ .nan := by
  cases v <;> simp [pyNotNa]

/-- Claim **C4**: with the three mandatory columns present, `get_valid_records` is
    exactly a filter followed by the fixed canonical-to-external rename: a
    record is admitted iff `Open_Date` is non-null and `Customer_Name` and
    `Customer_Id` are non-null and non-empty after string coercion; nothing
    else is validated or modified. -/
theorem C4_select_valid_filter_rename (f : Frame)
    (h1 : f.cols.contains "Open_Date" = true)
    (h2 : f.cols.contains "Customer_Name" = true)
    (h3 : f.cols.contains "Customer_Id" = true) :
    (getValidRecords f).cols = f.cols.map snowName ∧
    (getValidRecords f).rows = (f.rows.filter (admitRow f.cols)).map renameRow ∧
    (∀ r : Row, admitRow f.cols r = true ↔
      (getVal r "Open_Date" ≠ .nan ∧
       (getVal r "Customer_Name" ≠ .nan ∧
        pyStrOf (getVal r "Customer_Name") ≠ "") ∧
       (getVal r "Customer_Id" ≠ .nan ∧
        pyStrOf (getVal r "Customer_Id") ≠ ""))) ∧
    snowName "Customer_Name" = "Name" ∧ snowName "Customer_Id" = "Cust_I" ∧
    snowName "Open_Date" = "Open_Dt" ∧ snowName "DOB" = "DOB" := by
  have hm1 : "Open_Date" ∈ f.cols := (contains_iff_mem _ _).mp h1
  have hm2 : "Customer_Name" ∈ f.cols := (contains_iff_mem _ _).mp h2
  have hm3 : "Customer_Id" ∈ f.cols := (contains_iff_mem _ _).mp h3
  refine ⟨rfl, rfl, ?_, by decide, by decide, by decide, by decide⟩
  intro r
  simp [admitRow, hm1, hm2, hm3, pyNotNa_iff, and_assoc]

/-- Witness for `C4_select_valid_filter_rename` on a two-row frame (one
    admissible row, one with an empty `Customer_Id`). -/
theorem C4_select_valid_filter_rename_witness :
    (getValidRecords
        ⟨["Customer_Name", "Customer_Id", "Open_Date"],
         [[("Customer_Name", .str "A"), ("Customer_Id", .str "1"),
           ("Open_Date", .str "01/02/2023")],
          [("Customer_Name", .str "B"), ("Customer_Id", .str ""),
           ("Open_Date", .str "01/02/2023")]]⟩).cols =
      ["Customer_Name", "Customer_Id", "Open_Date"].map snowName ∧
    (getValidRecords
        ⟨["Customer_Name", "Customer_Id", "Open_Date"],
         [[("Customer_Name", .str "A"), ("Customer_Id", .str "1"),
           ("Open_Date", .str "01/02/2023")],
          [("Customer_Name", .str "B"), ("Customer_Id", .str ""),
           ("Open_Date", .str "01/02/2023")]]⟩).rows =
      ([[("Customer_Name", PyVal.str "A"), ("Customer_Id", .str "1"),
         ("Open_Date", .str "01/02/2023")],
        [("Customer_Name", .str "B"), ("Customer_Id", .str ""),
         ("Open_Date", .str "01/02/2023")]].filter
          (admitRow ["Customer_Name", "Customer_Id", "Open_Date"])).map
        renameRow ∧
    (∀ r : Row,
      admitRow ["Customer_Name", "Customer_Id", "Open_Date"] r = true ↔
      (getVal r "Open_Date" ≠ .nan ∧
       (getVal r "Customer_Name" ≠ .nan ∧
        pyStrOf (getVal r "Customer_Name") ≠ "") ∧
       (getVal r "Customer_Id" ≠ .nan ∧
        pyStrOf (getVal r "Customer_Id") ≠ ""))) ∧
    snowName "Customer_Name" = "Name" ∧ snowName "Customer_Id" = "Cust_I" ∧
    snowName "Open_Date" = "Open_Dt" ∧ snowName "DOB" = "DOB" :=
  C4_select_valid_filter_rename _ (by decide) (by decide) (by decide)

/-- Claim **C5** (amended): for a batch with no alias of `Customer_Id`, strict
    reconciliation raises before any row is classified; non-strict
    reconciliation proceeds to a frame without the column, and the valid-set
    filter then imposes **no** `Customer_Id` condition at all (it checks only
    the mandatory columns present in the frame), so such rows are *not*
    excluded for the missing mandatory column. -/
theorem C5_missing_mandatory_amended (f : Frame) (fn : Option String)
    (hc : ∀ c ∈ f.cols, lookupTarget c ≠ some "Customer_Id") :
    (∃ msg, validateData f fn true = .error (.valueError msg)) ∧
    (∃ g, validateColumns f fn false = .ok g ∧
      g.cols.contains "Customer_Id" = false) ∧
    (∀ g : Frame, g.cols.contains "Customer_Id" = false →
      ∀ r : Row, admitRow g.cols r =
        ((if g.cols.contains "Open_Date" then pyNotNa (getVal r "Open_Date")
          else true) &&
         (if g.cols.contains "Customer_Name" then
            pyNotNa (getVal r "Customer_Name") &&
              (pyStrOf (getVal r "Customer_Name") != "")
          else true))) := by
  have hnm : "Customer_Id" ∉ mappedTargets f.cols := by
    rw [mem_mappedTargets]
    rintro ⟨c, hcc, hl⟩
    exact hc c hcc hl
  have hcols : "Customer_Id" ∉ vcCols f.cols fn := by
    unfold vcCols
    by_cases hcf : countryFallback f.cols fn
    · rw [if_pos hcf]
      intro hmem
      rcases List.mem_append.mp hmem with hmem | hmem
      · exact hnm hmem
      · exact absurd (List.mem_singleton.mp hmem) (by decide)
    · rw [if_neg hcf]
      exact hnm
  have hmiss : "Customer_Id" ∈ vcMissing f.cols fn := by
    refine List.mem_filter.mpr ⟨by decide, ?_⟩
    simp only [decide_eq_true_eq]
    rw [contains_iff_mem]
    exact hcols
  have hne : ¬ (vcMissing f.cols fn).isEmpty = true := by
    rw [List.isEmpty_iff]
    intro he
    rw [he] at hmiss
    exact List.not_mem_nil _ hmiss
  have hok : validateColumns f fn false =
      .ok ⟨vcCols f.cols fn, f.rows.map (vcRow f.cols fn)⟩ := by
    unfold validateColumns
    rw [if_neg (fun h => absurd h.1 (by decide))]
  have hcf : (vcCols f.cols fn).contains "Customer_Id" = false := by
    cases hb : (vcCols f.cols fn).contains "Customer_Id" with
    | false => rfl
    | true => exact absurd ((contains_iff_mem _ _).mp hb) hcols
  have herr : validateData f fn true =
      .error (.valueError ("Missing mandatory columns: " ++
        String.intercalate ", " (vcMissing f.cols fn))) := by
    unfold validateData validateColumns
    rw [if_pos ⟨rfl, hne⟩]
  have hadm : ∀ g : Frame, g.cols.contains "Customer_Id" = false →
      ∀ r : Row, admitRow g.cols r =
        ((if g.cols.contains "Open_Date" then pyNotNa (getVal r "Open_Date")
          else true) &&
         (if g.cols.contains "Customer_Name" then
            pyNotNa (getVal r "Customer_Name") &&
              (pyStrOf (getVal r "Customer_Name") != "")
          else true)) := by
    intro g hg r
    unfold admitRow
    rw [hg]
    simp
  exact ⟨⟨_, herr⟩, ⟨_, hok, hcf⟩, hadm⟩

theorem exMap_ok_length {α β : Type} (g : α → Except PyExc β) (l : List α)
    (bs : List β) (h : exMap g l = .ok bs) : bs.length = l.length := by
  induction l generalizing bs with
  | nil =>
    unfold exMap at h
    injection h with h
    rw [← h]
    rfl
  | cons a l ih =>
    unfold exMap at h
    cases hga : g a with
    | error e => rw [hga] at h; exact absurd h (by simp)
    | ok b =>
      rw [hga] at h
      cases hrest : exMap g l with
      | error e => rw [hrest] at h; exact absurd h (by simp)
      | ok bs0 =>
        rw [hrest] at h
        injection h with h
        rw [← h, List.length_cons, List.length_cons, ih bs0 hrest]

theorem exMap_ok_get {α β : Type} (g : α → Except PyExc β) (l : List α)
    (bs : List β) (h : exMap g l = .ok bs) :
    ∀ i (hi : i < l.length) (hb : i < bs.length),
      g (l.get ⟨i, hi⟩) = .ok (bs.get ⟨i, hb⟩) := by
  induction l generalizing bs with
  | nil => intro i hi; exact absurd hi (by simp)
  | cons a l ih =>
    unfold exMap at h
    cases hga : g a with
    | error e => rw [hga] at h; exact absurd h (by simp)
    | ok b =>
      rw [hga] at h
      cases hrest : exMap g l with
      | error e => rw [hrest] at h; exact absurd h (by simp)
      | ok bs0 =>
        rw [hrest] at h
        injection h with h
        subst h
        intro i hi hb
        match i with
        | 0 => exact hga
        | n + 1 =>
          exact ih bs0 hrest n (Nat.lt_of_succ_lt_succ hi)
            (Nat.lt_of_succ_lt_succ hb)

theorem nullInvalid_length (c : String) (rows : List Row)
    (errs : List (Option String)) (h : errs.length = rows.length) :
    (nullInvalid c rows errs).length = rows.length := by
  induction rows generalizing errs with
  | nil => unfold nullInvalid; cases errs <;> rfl
  | cons r rs ih =>
    cases errs with
    | nil => exact absurd h (by simp)
    | cons e es =>
      unfold nullInvalid
      rw [List.length_cons, List.length_cons, ih es (by simpa using h)]

theorem nullInvalid_get (c : String) (rows : List Row)
    (errs : List (Option String)) :
    ∀ i (hi : i < rows.length) (he : i < errs.length)
      (hn : i < (nullInvalid c rows errs).length),
      (nullInvalid c rows errs).get ⟨i, hn⟩ =
        (match errs.get ⟨i, he⟩ with
         | some _ => setVal (rows.get ⟨i, hi⟩) c .nan
         | none => rows.get ⟨i, hi⟩) := by
  induction rows generalizing errs with
  | nil => intro i hi; exact absurd hi (by simp)
  | cons r rs ih =>
    intro i hi he hn
    cases errs with
    | nil => exact absurd he (by simp)
    | cons e es =>
      match i with
      | 0 => cases e <;> rfl
      | n + 1 =>
        exact ih es n (Nat.lt_of_succ_lt_succ hi) (Nat.lt_of_succ_lt_succ he)
          (by simpa [nullInvalid] using hn)

theorem invalidOf_field (c : String) (rows : List Row)
    (errs : List (Option String)) :
    ∀ e ∈ invalidOf c rows errs, e.field = c := by
  induction rows generalizing errs with
  | nil => intro e he; unfold invalidOf at he; cases errs <;> cases he
  | cons r rs ih =>
    intro e he
    cases errs with
    | nil => cases he
    | cons e0 es =>
      unfold invalidOf at he
      cases e0 with
      | none => exact ih es e he
      | some m =>
        rcases List.mem_cons.mp he with rfl | he
        · rfl
        · exact ih es e he

theorem invalidOf_mem (c : String) (rows : List Row)
    (errs : List (Option String)) :
    ∀ i (hi : i < rows.length) (he : i < errs.length) (m : String),
      errs.get ⟨i, he⟩ = some m →
      (⟨rows.get ⟨i, hi⟩, c, m⟩ : InvalidRec) ∈ invalidOf c rows errs := by
  induction rows generalizing errs with
  | nil => intro i hi; exact absurd hi (by simp)
  | cons r rs ih =>
    intro i hi he m hm
    cases errs with
    | nil => exact absurd he (by simp)
    | cons e0 es =>
      match i with
      | 0 =>
        simp only [List.get] at hm
        subst hm
        unfold invalidOf
        exact List.mem_cons_self _ _
      | n + 1 =>
        have hmem := ih es n (Nat.lt_of_succ_lt_succ hi)
          (Nat.lt_of_succ_lt_succ he) m hm
        unfold invalidOf
        cases e0 with
        | none => exact hmem
        | some m0 => exact List.mem_cons_of_mem _ hmem

theorem get_map_at {α β : Type} (fm : α → β) (l : List α) :
    ∀ i (h1 : i < l.length) (h2 : i < (l.map fm).length),
      (l.map fm).get ⟨i, h2⟩ = fm (l.get ⟨i, h1⟩) := by
  induction l with
  | nil => intro i h1; exact absurd h1 (by simp)
  | cons a l ih =>
    intro i h1 h2
    match i with
    | 0 => rfl
    | n + 1 => exact ih n (Nat.lt_of_succ_lt_succ h1) (Nat.lt_of_succ_lt_succ h2)

theorem coerceRow_getVal_notString (r : Row) (c : String)
    (hc : stringColumns.contains c = false) :
    getVal (coerceRow r) c = getVal r c := by
  induction r with
  | nil => rfl
  | cons p r ih =>
    unfold coerceRow
    rw [List.map_cons, getVal_cons, getVal_cons]
    by_cases hpc : p.1 = c
    · have : stringColumns.contains p.1 = false := hpc ▸ hc
      rw [this]
      simp only [Bool.false_eq_true, if_false, if_pos hpc]
    · by_cases hs : stringColumns.contains p.1 = true
      · rw [hs]
        simp only [if_pos, if_neg hpc]
        exact ih
      · rw [Bool.eq_false_iff.mpr hs]
        simp only [Bool.false_eq_true, if_false, if_neg hpc]
        exact ih

theorem coerceRow_getVal_present (r : Row) (c : String)
    (hc : stringColumns.contains c = true)
    (hp : (r.find? (fun q => q.1 = c)).isSome = true) :
    getVal (coerceRow r) c = .str (pyStrOf (getVal r c)) := by
  induction r with
  | nil => exact absurd hp (by simp [List.find?])
  | cons p r ih =>
    unfold coerceRow
    rw [List.map_cons, getVal_cons, getVal_cons]
    by_cases hpc : p.1 = c
    · have hs : stringColumns.contains p.1 = true := hpc ▸ hc
      rw [hs]
      simp only [if_pos, if_pos hpc]
    · simp only [if_neg hpc]
      have hp' : (r.find? (fun q => q.1 = c)).isSome = true := by
        rw [List.find?_cons_of_neg] at hp
        · exact hp
        · simp [hpc]
      by_cases hs : stringColumns.contains p.1 = true
      · rw [hs]
        simp only [if_pos, if_neg hpc]
        exact ih hp'
      · rw [Bool.eq_false_iff.mpr hs]
        simp only [Bool.false_eq_true, if_false, if_neg hpc]
        exact ih hp'

theorem getVal_ne_nan_isSome (r : Row) (c : String)
    (h : getVal r c ≠ .nan) :
    (r.find? (fun q => q.1 = c)).isSome = true := by
  unfold getVal at h
  cases hf : r.find? (fun q => q.1 = c) with
  | none => rw [hf] at h; exact absurd rfl h
  | some p => simp [hf]

/-- Inversion of one optional-date-column pass
    (`if col in columns: validate, log, null`). -/
theorem optStage_ok (b : Bool) (c : String) (rows rows' : List Row)
    (h : (if b then nullCol c rows else .ok rows) = .ok rows') :
    rows'.length = rows.length ∧
    ∀ i (hi : i < rows.length) (hi' : i < rows'.length),
      (∀ c', c' ≠ c → getVal (rows'.get ⟨i, hi'⟩) c' =
        getVal (rows.get ⟨i, hi⟩) c') ∧
      (b = true → ∀ m,
        dateCheckCell (getVal (rows.get ⟨i, hi⟩) c) = .ok (some m) →
        getVal (rows'.get ⟨i, hi'⟩) c = .nan) := by
  cases b with
  | false =>
    rw [if_neg (by simp)] at h
    injection h with h
    subst h
    exact ⟨rfl, fun i hi hi' =>
      ⟨fun c' _ => rfl, fun hb => absurd hb (by simp)⟩⟩
  | true =>
    rw [if_pos rfl] at h
    unfold nullCol at h
    cases hex : exMap (fun r => dateCheckCell (getVal r c)) rows with
    | error e => rw [hex] at h; exact absurd h (by simp)
    | ok errs =>
      rw [hex] at h
      injection h with h
      subst h
      have hlen : errs.length = rows.length := exMap_ok_length _ _ _ hex
      refine ⟨nullInvalid_length c rows errs hlen, ?_⟩
      intro i hi hi'
      have he : i < errs.length := hlen ▸ hi
      have hget := nullInvalid_get c rows errs i hi he hi'
      have hcheck := exMap_ok_get _ _ _ hex i hi he
      cases hei : errs.get ⟨i, he⟩ with
      | some m0 =>
        rw [hei] at hget
        have hget2 : (nullInvalid c rows errs).get ⟨i, hi'⟩ =
            setVal (rows.get ⟨i, hi⟩) c .nan := by rw [hget]
        refine ⟨fun c' hc' => ?_, fun _ m hm => ?_⟩
        · rw [hget2, getVal_setVal_ne _ _ _ _ (Ne.symm hc')]
        · rw [hget2, getVal_setVal_nan]
      | none =>
        rw [hei] at hget
        have hget2 : (nullInvalid c rows errs).get ⟨i, hi'⟩ =
            rows.get ⟨i, hi⟩ := by rw [hget]
        refine ⟨fun c' _ => by rw [hget2], fun _ m hm => ?_⟩
        rw [hei] at hcheck
        rw [hcheck] at hm
        injection hm with hm
        exact absurd hm (by simp)

/-- Full inversion of `validate_column_types` on a frame carrying
    `Open_Date`: column set and row count are preserved, every invalid
    outcome names `Open_Date`, mandatory failures are collected and nulled,
    optional failures are only nulled, and all other cells are untouched. -/
theorem validateColumnTypes_ok (f g : Frame) (inv : List InvalidRec)
    (hOD : f.cols.contains "Open_Date" = true)
    (h : validateColumnTypes f = .ok (g, inv)) :
    g.cols = f.cols ∧
    g.rows.length = f.rows.length ∧
    (∀ e ∈ inv, e.field = "Open_Date") ∧
    (∀ i (hi : i < f.rows.length) (hi' : i < g.rows.length),
      (∀ m, dateCheckCell (getVal (coerceRow (f.rows.get ⟨i, hi⟩)) "Open_Date") =
          .ok (some m) →
        getVal (g.rows.get ⟨i, hi'⟩) "Open_Date" = .nan ∧
        (⟨coerceRow (f.rows.get ⟨i, hi⟩), "Open_Date", m⟩ : InvalidRec) ∈ inv) ∧
      (dateCheckCell (getVal (coerceRow (f.rows.get ⟨i, hi⟩)) "Open_Date") =
          .ok none →
        getVal (g.rows.get ⟨i, hi'⟩) "Open_Date" =
          getVal (coerceRow (f.rows.get ⟨i, hi⟩)) "Open_Date") ∧
      (∀ c, (c = "Last_Consulted_Date" ∨ c = "DOB") →
        ∀ m, dateCheckCell (getVal (coerceRow (f.rows.get ⟨i, hi⟩)) c) =
            .ok (some m) →
          f.cols.contains c = true →
          getVal (g.rows.get ⟨i, hi'⟩) c = .nan) ∧
      (∀ c, c ≠ "Open_Date" → c ≠ "Last_Consulted_Date" → c ≠ "DOB" →
        getVal (g.rows.get ⟨i, hi'⟩) c =
          getVal (coerceRow (f.rows.get ⟨i, hi⟩)) c)) := by
  unfold validateColumnTypes at h
  rw [if_pos hOD] at h
  cases hex : exMap (fun r => dateCheckCell (getVal r "Open_Date"))
      (f.rows.map coerceRow) with
  | error e => rw [hex] at h; exact absurd h (by simp)
  | ok errs =>
    rw [hex] at h
    replace h :
        ((match (if f.cols.contains "Last_Consulted_Date" then
                   nullCol "Last_Consulted_Date"
                     (nullInvalid "Open_Date" (f.rows.map coerceRow) errs)
                 else .ok (nullInvalid "Open_Date" (f.rows.map coerceRow) errs) :
                 Except PyExc (List Row)) with
          | .error e => .error e
          | .ok r3 =>
            match (if f.cols.contains "DOB" then nullCol "DOB" r3
                   else .ok r3 : Except PyExc (List Row)) with
            | .error e => .error e
            | .ok r4 =>
              .ok (⟨f.cols, r4⟩,
                invalidOf "Open_Date" (f.rows.map coerceRow) errs)) :
          Except PyExc (Frame × List InvalidRec)) = .ok (g, inv) := h
    cases h2 : (if f.cols.contains "Last_Consulted_Date" then
        nullCol "Last_Consulted_Date"
          (nullInvalid "Open_Date" (f.rows.map coerceRow) errs)
      else .ok (nullInvalid "Open_Date" (f.rows.map coerceRow) errs)) with
    | error e =>
      rw [h2] at h
      replace h : (Except.error e : Except PyExc (Frame × List InvalidRec)) =
          .ok (g, inv) := h
      exact absurd h (by simp)
    | ok r3 =>
      rw [h2] at h
      replace h :
          ((match (if f.cols.contains "DOB" then nullCol "DOB" r3
                   else .ok r3 : Except PyExc (List Row)) with
            | .error e => .error e
            | .ok r4 =>
              .ok (⟨f.cols, r4⟩,
                invalidOf "Open_Date" (f.rows.map coerceRow) errs)) :
            Except PyExc (Frame × List InvalidRec)) = .ok (g, inv) := h
      cases h3 : (if f.cols.contains "DOB" then nullCol "DOB" r3
          else .ok r3) with
      | error e =>
        rw [h3] at h
        replace h : (Except.error e : Except PyExc (Frame × List InvalidRec)) =
            .ok (g, inv) := h
        exact absurd h (by simp)
      | ok r4 =>
        rw [h3] at h
        replace h : (Except.ok (⟨f.cols, r4⟩,
            invalidOf "Open_Date" (f.rows.map coerceRow) errs) :
            Except PyExc (Frame × List InvalidRec)) = .ok (g, inv) := h
        injection h with h
        have hg : g = ⟨f.cols, r4⟩ := (congrArg Prod.fst h).symm
        have hinv : inv = invalidOf "Open_Date" (f.rows.map coerceRow) errs :=
          (congrArg Prod.snd h).symm
        have hglen : errs.length = (f.rows.map coerceRow).length :=
          exMap_ok_length _ _ _ hex
        have hlen1 : (nullInvalid "Open_Date" (f.rows.map coerceRow) errs).length =
            f.rows.length := by
          rw [nullInvalid_length _ _ _ hglen, List.length_map]
        obtain ⟨hlen2, hstage2⟩ := optStage_ok _ _ _ _ h2
        obtain ⟨hlen3, hstage3⟩ := optStage_ok _ _ _ _ h3
        subst hg
        refine ⟨rfl, by rw [hlen3, hlen2, hlen1], ?_, ?_⟩
        · rw [hinv]
          exact invalidOf_field _ _ _
        · intro i hi hi'
          have hiM : i < (f.rows.map coerceRow).length := by
            rw [List.length_map]; exact hi
          have hiE : i < errs.length := by rw [hglen]; exact hiM
          have hi2 : i < (nullInvalid "Open_Date" (f.rows.map coerceRow) errs).length := by
            rw [hlen1]; exact hi
          have hi3 : i < r3.length := by rw [hlen2, hlen1]; exact hi
          have hcr : (f.rows.map coerceRow).get ⟨i, hiM⟩ =
              coerceRow (f.rows.get ⟨i, hi⟩) := get_map_at _ _ i hi hiM
          have hcheck := exMap_ok_get _ _ _ hex i hiM hiE
          rw [hcr] at hcheck
          have hget2 := nullInvalid_get "Open_Date" (f.rows.map coerceRow) errs i hiM hiE hi2
          obtain ⟨hpres2, hnull2⟩ := hstage2 i hi2 hi3
          obtain ⟨hpres3, hnull3⟩ := hstage3 i hi3 hi'
          have hLCD : getVal ((nullInvalid "Open_Date" (f.rows.map coerceRow) errs).get
              ⟨i, hi2⟩) "Last_Consulted_Date" =
              getVal (coerceRow (f.rows.get ⟨i, hi⟩)) "Last_Consulted_Date" := by
            cases hei : errs.get ⟨i, hiE⟩ with
            | some m0 =>
              rw [hei] at hget2
              have hrow : (nullInvalid "Open_Date" (f.rows.map coerceRow) errs).get
                  ⟨i, hi2⟩ = setVal (coerceRow (f.rows.get ⟨i, hi⟩)) "Open_Date" .nan := by
                rw [hget2, hcr]
              rw [hrow, getVal_setVal_ne _ _ _ _ (by decide)]
            | none =>
              rw [hei] at hget2
              have hrow : (nullInvalid "Open_Date" (f.rows.map coerceRow) errs).get
                  ⟨i, hi2⟩ = coerceRow (f.rows.get ⟨i, hi⟩) := by
                rw [hget2, hcr]
              rw [hrow]
          have hDOB : getVal (r3.get ⟨i, hi3⟩) "DOB" =
              getVal (coerceRow (f.rows.get ⟨i, hi⟩)) "DOB" := by
            rw [hpres2 "DOB" (by decide)]
            cases hei : errs.get ⟨i, hiE⟩ with
            | some m0 =>
              rw [hei] at hget2
              have hrow : (nullInvalid "Open_Date" (f.rows.map coerceRow) errs).get
                  ⟨i, hi2⟩ = setVal (coerceRow (f.rows.get ⟨i, hi⟩)) "Open_Date" .nan := by
                rw [hget2, hcr]
              rw [hrow, getVal_setVal_ne _ _ _ _ (by decide)]
            | none =>
              rw [hei] at hget2
              have hrow : (nullInvalid "Open_Date" (f.rows.map coerceRow) errs).get
                  ⟨i, hi2⟩ = coerceRow (f.rows.get ⟨i, hi⟩) := by
                rw [hget2, hcr]
              rw [hrow]
          refine ⟨?_, ?_, ?_, ?_⟩
          · intro m hm
            rw [hcheck] at hm
            injection hm with hm
            have hei : errs.get ⟨i, hiE⟩ = some m := hm
            rw [hei] at hget2
            have hrow : (nullInvalid "Open_Date" (f.rows.map coerceRow) errs).get
                ⟨i, hi2⟩ = setVal (coerceRow (f.rows.get ⟨i, hi⟩)) "Open_Date" .nan := by
              rw [hget2, hcr]
            constructor
            · rw [hpres3 "Open_Date" (by decide), hpres2 "Open_Date" (by decide),
                hrow, getVal_setVal_nan]
            · rw [hinv]
              have hmm := invalidOf_mem "Open_Date" (f.rows.map coerceRow) errs i hiM hiE
                m hei
              rw [hcr] at hmm
              exact hmm
          · intro hm
            rw [hcheck] at hm
            injection hm with hm
            have hei : errs.get ⟨i, hiE⟩ = none := hm
            rw [hei] at hget2
            have hrow : (nullInvalid "Open_Date" (f.rows.map coerceRow) errs).get
                ⟨i, hi2⟩ = coerceRow (f.rows.get ⟨i, hi⟩) := by
              rw [hget2, hcr]
            rw [hpres3 "Open_Date" (by decide), hpres2 "Open_Date" (by decide), hrow]
          · rintro c (rfl | rfl) m hm hcc
            · rw [hpres3 "Last_Consulted_Date" (by decide)]
              exact hnull2 hcc m (hLCD ▸ hm)
            · exact hnull3 hcc m (hDOB ▸ hm)
          · intro c hc1 hc2 hc3
            rw [hpres3 c hc3, hpres2 c hc2]
            cases hei : errs.get ⟨i, hiE⟩ with
            | some m0 =>
              rw [hei] at hget2
              have hrow : (nullInvalid "Open_Date" (f.rows.map coerceRow) errs).get
                  ⟨i, hi2⟩ = setVal (coerceRow (f.rows.get ⟨i, hi⟩)) "Open_Date" .nan := by
                rw [hget2, hcr]
              rw [hrow, getVal_setVal_ne _ _ _ _ (Ne.symm hc1)]
            | none =>
              rw [hei] at hget2
              have hrow : (nullInvalid "Open_Date" (f.rows.map coerceRow) errs).get
                  ⟨i, hi2⟩ = coerceRow (f.rows.get ⟨i, hi⟩) := by
                rw [hget2, hcr]
              rw [hrow]

theorem getVal_mem (r : Row) (c : String) (v : PyVal)
    (h : getVal r c = v) (hv : v ≠ .nan) : (c, v) ∈ r := by
  unfold getVal at h
  cases hf : r.find? (fun q => q.1 = c) with
  | none =>
    rw [hf] at h
    exact absurd h.symm hv
  | some p =>
    rw [hf] at h
    have hp := List.find?_some hf
    have hmem := List.mem_of_find?_eq_some hf
    rcases p with ⟨k, w⟩
    simp only [decide_eq_true_eq] at hp
    subst hp
    subst h
    exact hmem

/-- Claim **C3**: for every batch carrying `Open_Date` whose classification
    completes, every record remains in the clean stream (row count
    preserved); a record whose mandatory `Open_Date` fails date validation
    yields an invalid outcome carrying the field name and the specific
    reason, and its field is nulled; an optional date failure
    (`Last_Consulted_Date`, `DOB`) only nulls the field — the invalid
    collection never names any field but `Open_Date`. -/
theorem C3_mandatory_optional_asymmetry (f g : Frame) (inv : List InvalidRec)
    (hOD : f.cols.contains "Open_Date" = true)
    (h : validateColumnTypes f = .ok (g, inv)) :
    g.rows.length = f.rows.length ∧
    (∀ e ∈ inv, e.field = "Open_Date") ∧
    (∀ i (hi : i < f.rows.length) (hi' : i < g.rows.length),
      (∀ m, dateCheckCell (getVal (coerceRow (f.rows.get ⟨i, hi⟩)) "Open_Date") =
          .ok (some m) →
        getVal (g.rows.get ⟨i, hi'⟩) "Open_Date" = .nan ∧
        (⟨coerceRow (f.rows.get ⟨i, hi⟩), "Open_Date", m⟩ : InvalidRec) ∈ inv) ∧
      (∀ c, (c = "Last_Consulted_Date" ∨ c = "DOB") →
        ∀ m, dateCheckCell (getVal (coerceRow (f.rows.get ⟨i, hi⟩)) c) =
            .ok (some m) →
          f.cols.contains c = true →
          getVal (g.rows.get ⟨i, hi'⟩) c = .nan)) := by
  obtain ⟨_, hlen, hfield, hidx⟩ := validateColumnTypes_ok f g inv hOD h
  refine ⟨hlen, hfield, ?_⟩
  intro i hi hi'
  obtain ⟨hman, _, hopt, _⟩ := hidx i hi hi'
  exact ⟨hman, hopt⟩

/-- Witness for `C3_mandatory_optional_asymmetry` on `c3Frame`. -/
theorem C3_mandatory_optional_asymmetry_witness :
    c3Clean.rows.length = c3Frame.rows.length ∧
    (∀ e ∈ c3Invalid, e.field = "Open_Date") ∧
    (∀ i (hi : i < c3Frame.rows.length) (hi' : i < c3Clean.rows.length),
      (∀ m, dateCheckCell (getVal (coerceRow (c3Frame.rows.get ⟨i, hi⟩))
          "Open_Date") = .ok (some m) →
        getVal (c3Clean.rows.get ⟨i, hi'⟩) "Open_Date" = .nan ∧
        (⟨coerceRow (c3Frame.rows.get ⟨i, hi⟩), "Open_Date", m⟩ : InvalidRec) ∈
          c3Invalid) ∧
      (∀ c, (c = "Last_Consulted_Date" ∨ c = "DOB") →
        ∀ m, dateCheckCell (getVal (coerceRow (c3Frame.rows.get ⟨i, hi⟩)) c) =
            .ok (some m) →
          c3Frame.cols.contains c = true →
          getVal (c3Clean.rows.get ⟨i, hi'⟩) c = .nan)) :=
  C3_mandatory_optional_asymmetry c3Frame c3Clean c3Invalid (by decide) (by decide)

/-- Claim **C10**: a record whose mandatory `Customer_Name` is `NaN` at
    classification time is coerced to the literal string `"nan"`, which the
    valid-record filter treats as non-null and non-empty, so (with a valid
    `Open_Date` and `Customer_Id`) the record is admitted to the external
    output with `Name = "nan"` instead of being excluded. -/
theorem C10_nan_coercion_admits (f g : Frame) (inv : List InvalidRec) (i : Nat)
    (h1 : f.cols.contains "Open_Date" = true)
    (h2 : f.cols.contains "Customer_Name" = true)
    (h3 : f.cols.contains "Customer_Id" = true)
    (hres : validateColumnTypes f = .ok (g, inv))
    (hi : i < f.rows.length)
    (hCNp : ((f.rows.get ⟨i, hi⟩).find? (fun q => q.1 = "Customer_Name")).isSome
      = true)
    (hCN : getVal (f.rows.get ⟨i, hi⟩) "Customer_Name" = .nan)
    (hOD : dateCheckCell (getVal (f.rows.get ⟨i, hi⟩) "Open_Date") = .ok none)
    (hCI1 : getVal (f.rows.get ⟨i, hi⟩) "Customer_Id" ≠ .nan)
    (hCI2 : pyStrOf (getVal (f.rows.get ⟨i, hi⟩) "Customer_Id") ≠ "") :
    ∀ hi' : i < g.rows.length,
      getVal (g.rows.get ⟨i, hi'⟩) "Customer_Name" = .str "nan" ∧
      admitRow g.cols (g.rows.get ⟨i, hi'⟩) = true ∧
      renameRow (g.rows.get ⟨i, hi'⟩) ∈ (getValidRecords g).rows ∧
      ("Name", PyVal.str "nan") ∈ renameRow (g.rows.get ⟨i, hi'⟩) := by
  obtain ⟨hcols, _, _, hidx⟩ := validateColumnTypes_ok f g inv h1 hres
  intro hi'
  obtain ⟨_, hodpres, _, hpres⟩ := hidx i hi hi'
  have hODc : getVal (coerceRow (f.rows.get ⟨i, hi⟩)) "Open_Date" =
      getVal (f.rows.get ⟨i, hi⟩) "Open_Date" :=
    coerceRow_getVal_notString _ _ (by decide)
  have hodval : getVal (g.rows.get ⟨i, hi'⟩) "Open_Date" =
      getVal (f.rows.get ⟨i, hi⟩) "Open_Date" := by
    rw [hodpres (by rw [hODc]; exact hOD), hODc]
  have hODnn : getVal (f.rows.get ⟨i, hi⟩) "Open_Date" ≠ .nan := by
    intro hnan
    rw [hnan] at hOD
    exact absurd hOD (by decide)
  have hCNval : getVal (g.rows.get ⟨i, hi'⟩) "Customer_Name" = .str "nan" := by
    rw [hpres "Customer_Name" (by decide) (by decide) (by decide),
      coerceRow_getVal_present _ _ (by decide) hCNp, hCN]
    rfl
  have hCIval : getVal (g.rows.get ⟨i, hi'⟩) "Customer_Id" =
      .str (pyStrOf (getVal (f.rows.get ⟨i, hi⟩) "Customer_Id")) := by
    rw [hpres "Customer_Id" (by decide) (by decide) (by decide),
      coerceRow_getVal_present _ _ (by decide) (getVal_ne_nan_isSome _ _ hCI1)]
  have hadm : admitRow g.cols (g.rows.get ⟨i, hi'⟩) = true := by
    unfold admitRow
    rw [hcols, h1, h2, h3]
    simp only [if_pos, hodval, hCNval, hCIval, Bool.and_eq_true]
    refine ⟨⟨(pyNotNa_iff _).mpr hODnn, ?_⟩, ?_⟩
    · simp [pyNotNa, pyStrOf]
    · simp only [pyNotNa, pyStrOf, Bool.true_and]
      exact ⟨trivial, bne_iff_ne.mpr hCI2⟩
  refine ⟨hCNval, hadm, ?_, ?_⟩
  · exact List.mem_map.mpr
      ⟨g.rows.get ⟨i, hi'⟩,
       List.mem_filter.mpr ⟨List.get_mem _ _ hi', hadm⟩, rfl⟩
  · exact List.mem_map.mpr
      ⟨("Customer_Name", PyVal.str "nan"),
       getVal_mem _ _ _ hCNval (by decide), by decide⟩

/-- Witness for `C10_nan_coercion_admits` on `c10Frame`. -/
theorem C10_nan_coercion_admits_witness :
    getVal (c10Clean.rows.get ⟨0, by decide⟩) "Customer_Name" = .str "nan" ∧
    admitRow c10Clean.cols (c10Clean.rows.get ⟨0, by decide⟩) = true ∧
    renameRow (c10Clean.rows.get ⟨0, by decide⟩) ∈ (getValidRecords c10Clean).rows ∧
    ("Name", PyVal.str "nan") ∈ renameRow (c10Clean.rows.get ⟨0, by decide⟩) :=
  C10_nan_coercion_admits c10Frame c10Clean [] 0 (by decide) (by decide)
    (by decide) (by decide) (by decide) (by decide) (by decide) (by decide)
    (by decide) (by decide) (by decide)

/-- Witness for `C5_missing_mandatory_amended` on `noCustIdFrame`. -/
theorem C5_missing_mandatory_amended_witness :
    (∃ msg, validateData noCustIdFrame none true = .error (.valueError msg)) ∧
    (∃ g, validateColumns noCustIdFrame none false = .ok g ∧
      g.cols.contains "Customer_Id" = false) ∧
    (∀ g : Frame, g.cols.contains "Customer_Id" = false →
      ∀ r : Row, admitRow g.cols r =
        ((if g.cols.contains "Open_Date" then pyNotNa (getVal r "Open_Date")
          else true) &&
         (if g.cols.contains "Customer_Name" then
            pyNotNa (getVal r "Customer_Name") &&
              (pyStrOf (getVal r "Customer_Name") != "")
          else true))) :=
  C5_missing_mandatory_amended noCustIdFrame none (by decide)

theorem digitChar_isDigit {n : Nat} (h : n < 10) :
    (Nat.digitChar n).isDigit = true := by
  interval_cases n <;> decide

theorem digitChar_toNat {n : Nat} (h : n < 10) :
    (Nat.digitChar n).toNat = 48 + n := by
  interval_cases n <;> decide

theorem digitChar_not_ws {n : Nat} (h : n < 10) :
    (Nat.digitChar n).isWhitespace = false := by
  interval_cases n <;> decide

theorem mod_ten_lt (n : Nat) : n % 10 < 10 :=
  Nat.mod_lt n (by omega)

theorem pad2_digits {m : Nat} (h : m < 100) :
    ∀ c ∈ pad2 m, c.isDigit = true := by
  intro c hc
  unfold pad2 at hc
  rcases List.mem_cons.mp hc with rfl | hc
  · exact digitChar_isDigit (by omega)
  · rcases List.mem_cons.mp hc with rfl | hc
    · exact digitChar_isDigit (mod_ten_lt m)
    · cases hc

theorem pad4_digits {y : Nat} (h : y < 10000) :
    ∀ c ∈ pad4 y, c.isDigit = true := by
  intro c hc
  unfold pad4 at hc
  rcases List.mem_cons.mp hc with rfl | hc
  · exact digitChar_isDigit (by omega)
  · rcases List.mem_cons.mp hc with rfl | hc
    · exact digitChar_isDigit (mod_ten_lt _)
    · rcases List.mem_cons.mp hc with rfl | hc
      · exact digitChar_isDigit (mod_ten_lt _)
      · rcases List.mem_cons.mp hc with rfl | hc
        · exact digitChar_isDigit (mod_ten_lt _)
        · cases hc

theorem natFromDigits_pad2 {m : Nat} (h : m < 100) :
    natFromDigits (pad2 m) = m := by
  unfold natFromDigits pad2
  simp only [List.foldl]
  rw [digitChar_toNat (by omega), digitChar_toNat (mod_ten_lt m)]
  omega

theorem natFromDigits_pad4 {y : Nat} (h : y < 10000) :
    natFromDigits (pad4 y) = y := by
  unfold natFromDigits pad4
  simp only [List.foldl]
  rw [digitChar_toNat (by omega), digitChar_toNat (mod_ten_lt _),
    digitChar_toNat (mod_ten_lt _), digitChar_toNat (mod_ten_lt _)]
  omega

theorem spanDigits_append {ds : List Char} (c0 : Char) (r : List Char)
    (hd : ∀ c ∈ ds, c.isDigit = true) (hc : c0.isDigit = false) :
    spanDigits (ds ++ c0 :: r) = (ds, c0 :: r) := by
  induction ds with
  | nil => simp [spanDigits, hc]
  | cons a ds ih =>
    have ha : a.isDigit = true := hd a (List.mem_cons_self a ds)
    rw [List.cons_append]
    unfold spanDigits
    rw [ha, ih (fun c hcc => hd c (List.mem_cons_of_mem a hcc))]
    rfl

theorem dropWhile_not_ws (l : List Char)
    (h : ∀ c ∈ l, c.isWhitespace = false) :
    l.dropWhile Char.isWhitespace = l := by
  cases l with
  | nil => rfl
  | cons a l =>
    rw [List.dropWhile_cons, if_neg (by simp [h a (List.mem_cons_self a l)])]

theorem pyStrip_no_ws (l : List Char)
    (h : ∀ c ∈ l, c.isWhitespace = false) : pyStrip l = l := by
  unfold pyStrip
  rw [dropWhile_not_ws l h,
    dropWhile_not_ws l.reverse (fun c hc => h c (List.mem_reverse.mp hc)),
    List.reverse_reverse]

theorem digit_not_ws {c : Char} (h : c.isDigit = true) :
    c.isWhitespace = false := by
  by_contra hw
  rw [Bool.not_eq_false] at hw
  unfold Char.isWhitespace at hw
  simp only [Bool.or_eq_true, decide_eq_true_eq] at hw
  rcases hw with ((hw | hw) | hw) | hw <;> (subst hw; exact absurd h (by decide))

theorem digit_ne {c d : Char} (h : c.isDigit = true) (hd : d.isDigit = false) :
    c ≠ d := by
  intro he
  rw [he, hd] at h
  exact Bool.false_ne_true h

theorem renderChars_length (m d y : Nat) :
    (renderChars m d y).length = 10 := by
  simp [renderChars, pad2, pad4]

theorem renderChars_not_ws {m d y : Nat} (hm : m < 100) (hd : d < 100)
    (hy : y < 10000) :
    ∀ c ∈ renderChars m d y, c.isWhitespace = false := by
  intro c hc
  unfold renderChars at hc
  rcases List.mem_append.mp hc with hc | hc
  · exact digit_not_ws (pad2_digits hm c hc)
  · rcases List.mem_cons.mp hc with rfl | hc
    · decide
    · rcases List.mem_append.mp hc with hc | hc
      · exact digit_not_ws (pad2_digits hd c hc)
      · rcases List.mem_cons.mp hc with rfl | hc
        · decide
        · exact digit_not_ws (pad4_digits hy c hc)

theorem splitSign_render (m d y : Nat) (hm : m < 100) :
    splitSign (renderChars m d y) = (false, renderChars m d y) := by
  have h1 : Nat.digitChar (m / 10) ≠ '-' :=
    digit_ne (digitChar_isDigit (by omega)) (by decide)
  have h2 : Nat.digitChar (m / 10) ≠ '+' :=
    digit_ne (digitChar_isDigit (by omega)) (by decide)
  show splitSign (Nat.digitChar (m / 10) :: Nat.digitChar (m % 10) ::
      ('/' :: (pad2 d ++ ('/' :: pad4 y)))) = _
  simp only [splitSign]
  rw [if_neg h1, if_neg h2]
  simp [renderChars, pad2]

theorem spanDigits_render (m d y : Nat) (hm : m < 100) :
    spanDigits (renderChars m d y) =
      (pad2 m, '/' :: (pad2 d ++ ('/' :: pad4 y))) := by
  unfold renderChars
  exact spanDigits_append '/' _ (pad2_digits hm) (by decide)

theorem pyParseFloat_render (m d y : Nat) (hm : m < 100) :
    pyParseFloat (renderChars m d y) = none := by
  have hne1 : (renderChars m d y).map Char.toLower ≠ ['i', 'n', 'f'] := by
    intro h
    have hlen := congrArg List.length h
    rw [List.length_map, renderChars_length] at hlen
    exact absurd hlen (by decide)
  have hne2 : (renderChars m d y).map Char.toLower ≠
      ['i', 'n', 'f', 'i', 'n', 'i', 't', 'y'] := by
    intro h
    have hlen := congrArg List.length h
    rw [List.length_map, renderChars_length] at hlen
    exact absurd hlen (by decide)
  have hne3 : (renderChars m d y).map Char.toLower ≠ ['n', 'a', 'n'] := by
    intro h
    have hlen := congrArg List.length h
    rw [List.length_map, renderChars_length] at hlen
    exact absurd hlen (by decide)
  unfold pyParseFloat
  rw [splitSign_render m d y hm]
  simp only [spanDigits_render m d y hm]
  rw [if_neg (by simp [hne1, hne2]), if_neg (by simp [hne3])]
  simp [pad2, parseExpPart]

theorem digitsOnly_render {m d y : Nat} (hm : m < 100) (hd : d < 100)
    (hy : y < 10000) :
    digitsOnly (renderChars m d y) = pad2 m ++ pad2 d ++ pad4 y := by
  unfold digitsOnly renderChars
  rw [List.filter_append, List.filter_cons_of_neg (by decide),
    List.filter_append, List.filter_cons_of_neg (by decide),
    List.filter_eq_self.mpr (fun c hc => pad2_digits hm c hc),
    List.filter_eq_self.mpr (fun c hc => pad2_digits hd c hc),
    List.filter_eq_self.mpr (fun c hc => pad4_digits hy c hc),
    List.append_assoc]

theorem realDays_le_simpDays (y m : Nat) :
    realDaysInMonth y m ≤ simpDaysInMonth y m := by
  unfold realDaysInMonth
  by_cases hm : m = 2
  · subst hm
    by_cases hl : realLeap y
    · rw [if_pos rfl, if_pos hl]
      show (29 : Nat) ≤ if y % 4 = 0 then 29 else 28
      rw [if_pos hl.1]
    · rw [if_pos rfl, if_neg hl]
      show (28 : Nat) ≤ if y % 4 = 0 then 29 else 28
      split <;> omega
  · rw [if_neg hm]

theorem digitRunSplit_render {m d y : Nat} (hm : m < 100) (hd : d < 100)
    (hy : y < 10000) :
    digitRunSplit (pad2 m ++ pad2 d ++ pad4 y) = (m, d, y) := by
  have hlen : (pad2 m ++ pad2 d ++ pad4 y).length = 8 := by
    simp [pad2, pad4]
  have h2m : (pad2 m).length = 2 := rfl
  have h2d : (pad2 d).length = 2 := rfl
  have h4 : (pad2 m ++ pad2 d).length = 4 := rfl
  unfold digitRunSplit
  rw [if_neg (by rw [hlen]; decide)]
  rw [List.append_assoc, List.take_left' h2m, List.drop_left' h2m,
    List.take_left' h2d, ← List.append_assoc, List.drop_left' h4,
    natFromDigits_pad2 hm, natFromDigits_pad2 hd, natFromDigits_pad4 hy]

theorem digitRun_render {m d y : Nat} (hm1 : 1 ≤ m) (hm2 : m ≤ 12)
    (hd1 : 1 ≤ d) (hdr : d ≤ realDaysInMonth y m) (hy1 : 1900 ≤ y)
    (hy2 : y ≤ 2100) :
    digitRun (pad2 m ++ pad2 d ++ pad4 y) = .ok ⟨y, m, d⟩ := by
  have hm : m < 100 := by omega
  have hd : d < 100 := by
    have := realDays_le_simpDays y m
    have h31 : simpDaysInMonth y m ≤ 31 := by
      unfold simpDaysInMonth
      split <;> first | omega | (split <;> omega)
    omega
  have hy : y < 10000 := by omega
  unfold digitRun
  rw [digitRunSplit_render hm hd hy]
  simp only
  have hpy : promoteYear y = y := by
    unfold promoteYear
    rw [if_neg (by omega)]
  rw [hpy]
  rw [if_neg (by omega), if_neg (by omega), if_neg (by omega),
    if_neg (by push_neg; exact le_trans hdr (realDays_le_simpDays y m)),
    if_pos hdr]

theorem simpDays_le_31 (y m : Nat) : simpDaysInMonth y m ≤ 31 := by
  unfold simpDaysInMonth
  split <;> first | omega | (split <;> omega)

theorem parse_render {m d y : Nat} (hy1 : 1900 ≤ y) (hy2 : y ≤ 2100)
    (hm1 : 1 ≤ m) (hm2 : m ≤ 12) (hd1 : 1 ≤ d)
    (hdr : d ≤ realDaysInMonth y m) :
    parse_date (some (renderMDY m d y)) = .ok ⟨y, m, d⟩ := by
  have hm : m < 100 := by omega
  have hd : d < 100 := by
    have h1 := realDays_le_simpDays y m
    have h2 := simpDays_le_31 y m
    omega
  have hy : y < 10000 := by omega
  show parseDateCore (renderChars m d y) = .ok ⟨y, m, d⟩
  have hstrip : pyStrip (renderChars m d y) = renderChars m d y :=
    pyStrip_no_ws _ (renderChars_not_ws hm hd hy)
  have hempty : (renderChars m d y).isEmpty = false := by
    simp [renderChars, pad2]
  have hnorm : numericNormalize (renderChars m d y) =
      .ok (renderChars m d y) := by
    unfold numericNormalize
    rw [pyParseFloat_render m d y hm]
  have h6 : 6 ≤ (pad2 m ++ pad2 d ++ pad4 y).length := by
    simp [pad2, pad4]
  unfold parseDateCore
  simp only [hstrip, hempty, Bool.false_eq_true, if_false, hnorm,
    digitsOnly_render hm hd hy, h6, if_true,
    digitRun_render hm1 hm2 hd1 hdr hy1 hy2]

theorem digitRun_ok_valid {digits : List Char} {pd : ParsedDate}
    (h : digitRun digits = .ok pd) :
    1900 ≤ pd.year ∧ pd.year ≤ 2100 ∧ 1 ≤ pd.month ∧ pd.month ≤ 12 ∧
    1 ≤ pd.day ∧ pd.day ≤ realDaysInMonth pd.year pd.month := by
  simp only [digitRun] at h
  split at h
  · exact absurd h (by simp)
  · split at h
    · exact absurd h (by simp)
    · split at h
      · exact absurd h (by simp)
      · split at h
        · exact absurd h (by simp)
        · split at h
          · injection h with h
            subst h
            dsimp only
            refine ⟨by omega, by omega, by omega, by omega, by omega, ?_⟩
            assumption
          · exact absurd h (by simp)

theorem strptime_ok_valid {toks : List FmtTok} {nm : String} {cs : List Char}
    {t : Nat × Nat × Nat} (h : strptime toks nm cs = .ok t) :
    1 ≤ t.1 ∧ t.2.2 ≤ realDaysInMonth t.1 t.2.1 := by
  unfold strptime at h
  cases hmt : matchToks toks (none, none, none) cs with
  | none =>
    rw [hmt] at h
    replace h : (Except.error ("time data does not match format " ++ nm) :
        Except String (Nat × Nat × Nat)) = .ok t := h
    exact absurd h (by simp)
  | some md =>
    rw [hmt] at h
    obtain ⟨m0, d0, y0⟩ := md
    replace h : (if y0 < 1 then
        (.error ("year " ++ toString y0 ++ " is out of range") :
          Except String (Nat × Nat × Nat))
      else if d0 ≤ realDaysInMonth y0 m0 then .ok (y0, m0, d0)
      else .error "day is out of range for month") = .ok t := h
    split at h
    · exact absurd h (by simp)
    · split at h
      · injection h with h
        subst h
        dsimp only
        refine ⟨by omega, ?_⟩
        assumption
      · exact absurd h (by simp)

theorem tryFormats_ok_valid {fmts : List (List FmtTok × String)}
    {le : Option String} {fs : List Char} {pd : ParsedDate}
    (h : tryFormats fmts le fs = .ok pd) :
    1900 ≤ pd.year ∧ pd.year ≤ 2100 ∧ 1 ≤ pd.month ∧ pd.month ≤ 12 ∧
    1 ≤ pd.day ∧ pd.day ≤ realDaysInMonth pd.year pd.month := by
  induction fmts generalizing le with
  | nil => cases le <;> exact absurd h (by simp [tryFormats])
  | cons f rest ih =>
    obtain ⟨ftoks, fname⟩ := f
    unfold tryFormats at h
    cases hst : strptime ftoks fname fs with
    | error e =>
      rw [hst] at h
      replace h : tryFormats rest (some e) fs = .ok pd := h
      exact ih h
    | ok t =>
      obtain ⟨y0, m0, d0⟩ := t
      rw [hst] at h
      replace h : (if y0 < 1900 ∨ y0 > 2100 then
          tryFormats rest
            (some ("Invalid year: " ++ toString y0 ++
              " (must be between 1900 and 2100)")) fs
        else if m0 < 1 ∨ m0 > 12 then
          tryFormats rest
            (some ("Invalid month: " ++ toString m0 ++
              " (must be between 1 and 12)")) fs
        else if d0 < 1 ∨ d0 > simpDaysInMonth y0 m0 then
          tryFormats rest
            (some ("Invalid day: " ++ toString d0 ++ " (maximum " ++
              toString (simpDaysInMonth y0 m0) ++ " days in month " ++
              toString m0 ++ ")")) fs
        else .ok ⟨y0, m0, d0⟩) = .ok pd := h
      split at h
      · exact ih h
      · split at h
        · exact ih h
        · split at h
          · exact ih h
          · injection h with h
            subst h
            have hs := strptime_ok_valid hst
            dsimp only at hs ⊢
            exact ⟨by omega, by omega, by omega, by omega, by omega, hs.2⟩

theorem parseDateCore_ok_valid {l : List Char} {pd : ParsedDate}
    (h : parseDateCore l = .ok pd) :
    1900 ≤ pd.year ∧ pd.year ≤ 2100 ∧ 1 ≤ pd.month ∧ pd.month ≤ 12 ∧
    1 ≤ pd.day ∧ pd.day ≤ realDaysInMonth pd.year pd.month := by
  unfold parseDateCore at h
  split at h
  · exact absurd h (by simp)
  · cases hn : numericNormalize (pyStrip l) with
    | error e =>
      rw [hn] at h
      replace h : (Except.error e : Except PyExc ParsedDate) = .ok pd := h
      exact absurd h (by simp)
    | ok ds =>
      rw [hn] at h
      replace h : (if 6 ≤ (digitsOnly ds).length then
          match digitRun (digitsOnly ds) with
          | .ok pd0 => (.ok pd0 : Except PyExc ParsedDate)
          | .error msg =>
            if pyStartsWith "Invalid" msg then .error (.valueError msg)
            else tryFormats dateFormats none (fmtFilter ds)
        else tryFormats dateFormats none (fmtFilter ds)) = .ok pd := h
      split at h
      · cases hdr : digitRun (digitsOnly ds) with
        | ok pd0 =>
          rw [hdr] at h
          replace h : (Except.ok pd0 : Except PyExc ParsedDate) = .ok pd := h
          injection h with h
          subst h
          exact digitRun_ok_valid hdr
        | error msg =>
          rw [hdr] at h
          replace h : (if pyStartsWith "Invalid" msg then
              (.error (.valueError msg) : Except PyExc ParsedDate)
            else tryFormats dateFormats none (fmtFilter ds)) = .ok pd := h
          split at h
          · exact absurd h (by simp)
          · exact tryFormats_ok_valid h
      · exact tryFormats_ok_valid h

/-- Claim **C6** (amended): `parse_date` round-trips `MM/DD/YYYY`: every real
    calendar date with year 1900–2100 rendered as `MM/DD/YYYY` parses to
    itself, and re-parsing the `MM/DD/YYYY` rendering of any successful
    parse returns the same date.  (Idempotence under the `YYYY-MM-DD` or
    `DD-MM-YYYY` renderings fails — see the counterexample.) -/
theorem C6_mmddyyyy_idempotent :
    (∀ y m d : Nat, 1900 ≤ y → y ≤ 2100 → 1 ≤ m → m ≤ 12 → 1 ≤ d →
      d ≤ realDaysInMonth y m →
      parse_date (some (renderMDY m d y)) = .ok ⟨y, m, d⟩) ∧
    (∀ (s : String) (pd : ParsedDate), parse_date (some s) = .ok pd →
      parse_date (some (renderMDY pd.month pd.day pd.year)) = .ok pd) := by
  have hA : ∀ y m d : Nat, 1900 ≤ y → y ≤ 2100 → 1 ≤ m → m ≤ 12 → 1 ≤ d →
      d ≤ realDaysInMonth y m →
      parse_date (some (renderMDY m d y)) = .ok ⟨y, m, d⟩ :=
    fun y m d hy1 hy2 hm1 hm2 hd1 hdr => parse_render hy1 hy2 hm1 hm2 hd1 hdr
  refine ⟨hA, ?_⟩
  intro s pd h
  have hv : parseDateCore s.data = .ok pd := h
  obtain ⟨h1, h2, h3, h4, h5, h6⟩ := parseDateCore_ok_valid hv
  have hr := hA pd.year pd.month pd.day h1 h2 h3 h4 h5 h6
  rw [hr]

/-- Witness for `C6_mmddyyyy_idempotent`: re-parsing the rendering of
    `parse("2/29/2024")`, and the rendered leap day `12/31/1999`. -/
theorem C6_mmddyyyy_idempotent_witness :
    parse_date (some (renderMDY 2 29 2024)) = .ok ⟨2024, 2, 29⟩ ∧
    parse_date (some (renderMDY 12 31 1999)) = .ok ⟨1999, 12, 31⟩ :=
  ⟨C6_mmddyyyy_idempotent.2 "2/29/2024" ⟨2024, 2, 29⟩ (by decide),
   C6_mmddyyyy_idempotent.1 1999 12 31 (by decide) (by decide) (by decide)
     (by decide) (by decide) (by decide)⟩
